import Mathlib

/-!
Verification of the data-format converter (src/converter.py, src/new_converter.py).

The Python sources delegate parsing and generation to `json`, `pandas`,
`xml.etree.ElementTree` / `xml.dom.minidom` and `PyYAML`.  The shallow
embedding below models the Python data values that flow through the program
(`PyVal`), the library functions the source calls (restricted, where noted in
doc comments, to the fragments of their behaviour the program exercises:
integer-literal cells, quote-free CSV fields, ASCII element names), and then
translates each source function (`parse_json_data`, `parse_csv_data`,
`generate_csv_output`, `generate_xml_output`, `generate_yaml_output`,
`detect_format_from_content`, `validate_data`, the auto-detection fallback
loop of `converter.py`'s `main`, ...) on top of those models.
-/

/-- Model of the Python values the converter manipulates: `None`, booleans,
integers, integral floats (written `n.0`; these arise when pandas promotes an
integer column that contains missing values — general floating point is not
modelled), `NaN`, strings, lists and dicts (as ordered association lists,
matching Python's insertion-ordered `dict`). -/
inductive PyVal where
  | none
  | bool (b : Bool)
  | int (n : Int)
  | float (n : Int)
  | nan
  | str (s : String)
  | list (xs : List PyVal)
  | dict (kvs : List (String × PyVal))

/-- Python's `x is None` test on a `PyVal`. -/
def pyIsNone : PyVal → Bool
  | .none => true
  | _ => false

/-- Worker for decimal rendering: prepends the digits of `n` (least
significant digit already handled innermost) to `acc`.  Structural on the fuel
so that it computes by kernel reduction; `natToChars` supplies ample fuel. -/
def natCharsAux : Nat → Nat → List Char → List Char
  | 0, _, acc => acc
  | fuel + 1, n, acc =>
    let acc' := Char.ofNat (48 + n % 10) :: acc
    if n < 10 then acc' else natCharsAux fuel (n / 10) acc'

/-- Decimal digits of a natural number, most significant first
(the rendering Python's `str` produces for a non-negative `int`). -/
def natToChars (n : Nat) : List Char := natCharsAux (n + 1) n []

/-- Python's `str` on an `int`: decimal digits with a leading `-` when negative. -/
def intChars (n : Int) : List Char :=
  if n < 0 then '-' :: natToChars ((-n).toNat) else natToChars n.toNat

/-- Decimal rendering of a natural number as a `String`. -/
def natStr (n : Nat) : String := String.mk (natToChars n)

/-- Decimal rendering of an integer as a `String` (Python `str(int)`). -/
def intStr (n : Int) : String := String.mk (intChars n)

/-- Python's `str` applied to a scalar `PyVal` (`str(True) = "True"`,
`str(None) = "None"`, integral floats print with a trailing `.0`). -/
def pyStr : PyVal → String
  | .none => "None"
  | .bool true => "True"
  | .bool false => "False"
  | .int n => intStr n
  | .float n => intStr n ++ ".0"
  | .nan => "nan"
  | .str s => s
  | .list _ => "[...]"
  | .dict _ => "..."

/-- Split a character list at every occurrence of the separator, keeping empty
pieces — the behaviour of Python's `str.split(sep)` for a single-character
separator. -/
def splitChar (sep : Char) : List Char → List (List Char)
  | [] => [[]]
  | c :: cs =>
    let r := splitChar sep cs
    if c = sep then [] :: r
    else match r with
      | [] => [[c]]
      | p :: ps => (c :: p) :: ps

/-- Whether the first list is a leading segment of the second. -/
def leadMatch : List Char → List Char → Bool
  | [], _ => true
  | _ :: _, [] => false
  | a :: as, b :: bs => a = b && leadMatch as bs

/-- Substring occurrence on character lists. -/
def hasSub : List Char → List Char → Bool
  | s, pat =>
    if leadMatch pat s then true
    else match s with
      | [] => false
      | _ :: t => hasSub t pat

/-- Python `sep in s` for a string `sep`: substring containment test. -/
def containsSub (s pat : String) : Bool := hasSub s.data pat.data

/-- Count occurrences of a character in a string (Python `s.count(c)`). -/
def countChar (c : Char) (s : String) : Nat := s.data.count c

/-- JSON whitespace characters (the set `json.loads` skips between tokens). -/
def isJsonWs (c : Char) : Bool :=
  c = ' ' || c = '\t' || c = '\n' || c = '\r'

/-- Drop leading JSON whitespace. -/
def skipWs : List Char → List Char
  | [] => []
  | c :: cs => if isJsonWs c then skipWs cs else c :: cs

/-- Numeric value of a decimal digit character. -/
def digitVal (c : Char) : Nat := c.toNat - 48

/-- Longest prefix of decimal digits together with the remaining suffix. -/
def takeDigits : List Char → List Char × List Char
  | [] => ([], [])
  | c :: cs =>
    if c.isDigit then
      let r := takeDigits cs
      (c :: r.1, r.2)
    else ([], c :: cs)

/-- Value of a list of decimal digit characters, most significant first. -/
def digitsVal (ds : List Char) : Nat :=
  ds.foldl (fun a c => a * 10 + digitVal c) 0

/-- Lower-case hexadecimal digit character for a value below 16. -/
def hexDigitChar (n : Nat) : Char :=
  if n < 10 then Char.ofNat (48 + n) else Char.ofNat (87 + n)

/-- Four-character lower-case hexadecimal rendering of a code point, as in the
`\uXXXX` escapes emitted by Python's `json.dumps`. -/
def toHex4 (n : Nat) : List Char :=
  [hexDigitChar (n / 4096 % 16), hexDigitChar (n / 256 % 16),
   hexDigitChar (n / 16 % 16), hexDigitChar (n % 16)]

/-- Numeric value of one hexadecimal digit character, if it is one. -/
def hexVal (c : Char) : Option Nat :=
  if 48 ≤ c.toNat ∧ c.toNat ≤ 57 then some (c.toNat - 48)
  else if 97 ≤ c.toNat ∧ c.toNat ≤ 102 then some (c.toNat - 87)
  else if 65 ≤ c.toNat ∧ c.toNat ≤ 70 then some (c.toNat - 55)
  else Option.none

/-- JSON escape of one character as performed by `json.dumps` with
`ensure_ascii=False`: quote and backslash get a backslash escape, the five
short control escapes are used where they exist, the remaining control
characters become `\u00XX`, and everything else (including non-ASCII) is
emitted verbatim. -/
def escChar (c : Char) : List Char :=
  if c = '"' then ['\\', '"']
  else if c = '\\' then ['\\', '\\']
  else if c = '\n' then ['\\', 'n']
  else if c = '\t' then ['\\', 't']
  else if c = '\r' then ['\\', 'r']
  else if c = '\x08' then ['\\', 'b']
  else if c = '\x0c' then ['\\', 'f']
  else if c.toNat < 32 then '\\' :: 'u' :: toHex4 c.toNat
  else [c]

/-- JSON escape of a character list (string body, without the quotes). -/
def escChars : List Char → List Char
  | [] => []
  | c :: cs => escChar c ++ escChars cs

/-- JSON rendering of a string literal, quotes included. -/
def quoteJson (s : String) : String :=
  String.mk ('"' :: escChars s.data ++ ['"'])

/-- Body of a JSON string literal after the opening quote: unescapes until the
closing quote, rejecting raw control characters (as Python's strict decoder
does).  Lone surrogate escapes are rejected by the model (surrogate-pair
decoding is not modelled; `json.dumps` never emits them for the values in
scope). -/
def parseStrBody : List Char → Except String (List Char × List Char)
  | [] => .error "Unterminated string"
  | c :: cs =>
    if c = '"' then .ok ([], cs)
    else if c = '\\' then
      match cs with
      | [] => .error "Unterminated string"
      | e :: cs2 =>
        if e = 'n' then (parseStrBody cs2).map (fun r => ('\n' :: r.1, r.2))
        else if e = 't' then (parseStrBody cs2).map (fun r => ('\t' :: r.1, r.2))
        else if e = 'r' then (parseStrBody cs2).map (fun r => ('\r' :: r.1, r.2))
        else if e = 'b' then (parseStrBody cs2).map (fun r => ('\x08' :: r.1, r.2))
        else if e = 'f' then (parseStrBody cs2).map (fun r => ('\x0c' :: r.1, r.2))
        else if e = '"' ∨ e = '\\' ∨ e = '/' then
          (parseStrBody cs2).map (fun r => (e :: r.1, r.2))
        else if e = 'u' then
          match cs2 with
          | h1 :: h2 :: h3 :: h4 :: cs3 =>
            match hexVal h1, hexVal h2, hexVal h3, hexVal h4 with
            | some a, some b, some c3, some d =>
              let n := a * 4096 + b * 256 + c3 * 16 + d
              if n < 55296 then
                (parseStrBody cs3).map (fun r => (Char.ofNat n :: r.1, r.2))
              else .error "surrogate escapes not modelled"
            | _, _, _, _ => .error "Invalid \\uXXXX escape"
          | _ => .error "Invalid \\uXXXX escape"
        else .error "Invalid \\escape"
    else if c.toNat < 32 then .error "Invalid control character"
    else (parseStrBody cs).map (fun r => (c :: r.1, r.2))

/-- Parse an optionally signed decimal integer token after the sign has been
split off.  A following `.`, `e` or `E` would start a float literal, which the
model does not cover (the program's claims only involve integer-valued JSON
numbers), so the model rejects it. -/
def parseNumBody (neg : Bool) (cs : List Char) : Except String (PyVal × List Char) :=
  let p := takeDigits cs
  if p.1 = [] then .error "Expecting value"
  else if p.1.head? = some '0' ∧ 1 < p.1.length then .error "Expecting value"
  else if p.2.head? = some '.' ∨ p.2.head? = some 'e' ∨ p.2.head? = some 'E' then
    .error "float literals not modelled"
  else if neg then .ok (.int (-(digitsVal p.1 : Int)), p.2)
  else .ok (.int (digitsVal p.1), p.2)

/-- Parse an optionally signed decimal integer token. -/
def parseNum (cs : List Char) : Except String (PyVal × List Char) :=
  if cs.head? = some '-' then parseNumBody true cs.tail else parseNumBody false cs

mutual
/-- Recursive-descent JSON value parser (model of Python's `json.loads`
scanner).  The fuel argument only bounds recursion; `json_loads` supplies
enough for any input. -/
def parseVal : Nat → List Char → Except String (PyVal × List Char)
  | 0, _ => .error "recursion limit"
  | fuel + 1, cs0 =>
    let cs := skipWs cs0
    if cs.take 4 = ['n', 'u', 'l', 'l'] then .ok (.none, cs.drop 4)
    else if cs.take 4 = ['t', 'r', 'u', 'e'] then .ok (.bool true, cs.drop 4)
    else if cs.take 5 = ['f', 'a', 'l', 's', 'e'] then .ok (.bool false, cs.drop 5)
    else if cs.head? = some '"' then
      (parseStrBody cs.tail).map (fun r => (.str (String.mk r.1), r.2))
    else if cs.head? = some '[' then
      (let cs2 := skipWs cs.tail
       if cs2.head? = some ']' then .ok (.list [], cs2.tail)
       else (parseItems fuel cs2).map (fun r => (.list r.1, r.2)))
    else if cs.head? = some '\x7b' then
      (let cs2 := skipWs cs.tail
       if cs2.head? = some '\x7d' then .ok (.dict [], cs2.tail)
       else (parseMembers fuel cs2).map (fun r => (.dict r.1, r.2)))
    else parseNum cs

/-- Comma-separated JSON array items up to the closing bracket. -/
def parseItems : Nat → List Char → Except String (List PyVal × List Char)
  | 0, _ => .error "recursion limit"
  | fuel + 1, cs =>
    match parseVal fuel cs with
    | .error e => .error e
    | .ok (v, r) =>
      let r2 := skipWs r
      if r2.head? = some ',' then
        (parseItems fuel r2.tail).map (fun q => (v :: q.1, q.2))
      else if r2.head? = some ']' then .ok ([v], r2.tail)
      else .error "Expecting ',' delimiter"

/-- Comma-separated JSON object members up to the closing brace. -/
def parseMembers : Nat → List Char → Except String (List (String × PyVal) × List Char)
  | 0, _ => .error "recursion limit"
  | fuel + 1, cs =>
    let cs2 := skipWs cs
    if cs2.head? = some '"' then
      match parseStrBody cs2.tail with
      | .error e => .error e
      | .ok (k, r) =>
        let r2 := skipWs r
        if r2.head? = some ':' then
          match parseVal fuel r2.tail with
          | .error e => .error e
          | .ok (v, r3) =>
            let r4 := skipWs r3
            if r4.head? = some ',' then
              (parseMembers fuel r4.tail).map (fun q => ((String.mk k, v) :: q.1, q.2))
            else if r4.head? = some '\x7d' then .ok ([(String.mk k, v)], r4.tail)
            else .error "Expecting ',' delimiter"
        else .error "Expecting ':' delimiter"
    else .error "Expecting property name enclosed in double quotes"
end

/-- Model of Python's `json.loads`: parse one JSON value and require only
whitespace to follow.  The fuel `length + 1` always suffices, since every
recursive step consumes at least one character. -/
def json_loads (s : String) : Except String PyVal :=
  match parseVal (s.data.length + 1) s.data with
  | .error e => .error e
  | .ok (v, rest) =>
    match skipWs rest with
    | [] => .ok v
    | _ => .error "Extra data"

/-- Indentation prefix used by `json.dumps(..., indent=2)` at nesting depth `d`. -/
def jsonPad (d : Nat) : String := String.mk (List.replicate (2 * d) ' ')

mutual
/-- Model of Python's `json.dumps(v, indent=2, ensure_ascii=False)` at nesting
depth `d`: pretty-printed with two-space indentation, `(',', ': ')`
separators, non-ASCII characters left intact. -/
def dumpVal : PyVal → Nat → String
  | .none, _ => "null"
  | .bool true, _ => "true"
  | .bool false, _ => "false"
  | .int n, _ => intStr n
  | .float n, _ => intStr n ++ ".0"
  | .nan, _ => "NaN"
  | .str s, _ => quoteJson s
  | .list [], _ => "[]"
  | .list (x :: xs), d =>
    "[\n" ++ dumpItems (x :: xs) (d + 1) ++ "\n" ++ jsonPad d ++ "]"
  | .dict [], _ => "\x7b\x7d"
  | .dict (f :: fs), d =>
    "\x7b\n" ++ dumpMembers (f :: fs) (d + 1) ++ "\n" ++ jsonPad d ++ "\x7d"

/-- Array items of `dumpVal`, one per line, comma-separated. -/
def dumpItems : List PyVal → Nat → String
  | [], _ => ""
  | [x], d => jsonPad d ++ dumpVal x d
  | x :: y :: xs, d =>
    jsonPad d ++ dumpVal x d ++ ",\n" ++ dumpItems (y :: xs) d

/-- Object members of `dumpVal`, one per line, comma-separated. -/
def dumpMembers : List (String × PyVal) → Nat → String
  | [], _ => ""
  | [f], d => jsonPad d ++ quoteJson f.1 ++ ": " ++ dumpVal f.2 d
  | f :: g :: fs, d =>
    jsonPad d ++ quoteJson f.1 ++ ": " ++ dumpVal f.2 d ++ ",\n" ++ dumpMembers (g :: fs) d
end

/-- Model of `json.dumps(data, indent=2, ensure_ascii=False)`. -/
def json_dumps (v : PyVal) : String := dumpVal v 0

/-- Source `new_converter.py:88` `parse_json_data`: returns
`(json.loads(content), None)` on success — with no shape validation and no
wrapping of bare objects — and `(None, "Invalid JSON format: ...")` when
decoding raises.  Note that a JSON `null` input makes the first component
`None` as well, indistinguishable from failure. -/
def parse_json_data (content : String) : PyVal × Option String :=
  match json_loads content with
  | .ok v => (v, Option.none)
  | .error e => (.none, some ("Invalid JSON format: " ++ e))

/-- Source `converter.py:114` `parse_json_file` (body identical to
`parse_json_data`). -/
def parse_json_file (content : String) : PyVal × Option String :=
  parse_json_data content

/-- Source `new_converter.py:148` `generate_json_output`. -/
def generate_json_output (data : PyVal) : String × String × String :=
  (json_dumps data, "application/json", ".json")

/-- Source `converter.py:235` `validate_data`: data must be a list, non-empty,
and its first element must be a dict. -/
def validate_data (data : PyVal) : Bool × String :=
  match data with
  | .list [] => (false, "Data array is empty")
  | .list (.dict _ :: _) => (true, "Data is valid")
  | .list (_ :: _) => (false, "Data must contain objects/dictionaries")
  | _ => (false, "Data must be an array/list of objects")

/-- A record set in the canonical model: a list of flat field mappings. -/
def recSetVal (rs : List (List (String × PyVal))) : PyVal :=
  .list (rs.map .dict)


/-- Membership count lookup in an association list, defaulting to 0 (Python
`counts.get(col, 0)`). -/
def getCount (counts : List (String × Nat)) (k : String) : Nat :=
  match counts.find? (fun p => p.1 = k) with
  | some p => p.2
  | Option.none => 0

/-- Update-or-insert in an association list (Python `counts[col] = v`). -/
def setCount : List (String × Nat) → String → Nat → List (String × Nat)
  | [], k, v => [(k, v)]
  | p :: ps, k, v => if p.1 = k then (k, v) :: ps else p :: setCount ps k v

/-- The rename loop of pandas' `dedup_names`: while the candidate name is
already counted, bump its count and append `.count`.  The fuel bounds the
search; `counts.length + 1` always suffices because the candidates visited are
pairwise distinct keys of `counts`. -/
def dedupLoop : Nat → List (String × Nat) → String → Nat → String × List (String × Nat)
  | _, counts, col, 0 => (col, counts)
  | 0, counts, col, _ + 1 => (col, counts)
  | fuel + 1, counts, col, cur + 1 =>
    let counts2 := setCount counts col (cur + 2)
    let col2 := col ++ "." ++ natStr (cur + 1)
    dedupLoop fuel counts2 col2 (getCount counts2 col2)

/-- Worker for `dedup_names`, threading the occurrence counts. -/
def dedupGo : List String → List (String × Nat) → List String
  | [], _ => []
  | c :: rest, counts =>
    let r := dedupLoop (counts.length + 1) counts c (getCount counts c)
    r.1 :: dedupGo rest (setCount r.2 r.1 (getCount r.2 r.1 + 1))

/-- Model of pandas' header mangling (`dedup_names` /
`mangle_dupe_cols=True`): the k-th further occurrence of a duplicated column
name is renamed by suffixing `.k`, probing further if the new name also
exists.  Duplicate headers are renamed, never rejected. -/
def dedup_names (names : List String) : List String := dedupGo names []

/-- Integer-literal test for a CSV cell: optional minus sign then decimal
digits.  (Model restriction: pandas' richer dtype inference — float and
boolean literals — is not modelled; the converter's claims only exercise
integer and plain-string cells.) -/
def isIntLit (s : String) : Bool :=
  match s.data with
  | '-' :: ds => !ds.isEmpty && ds.all (·.isDigit)
  | ds => !ds.isEmpty && ds.all (·.isDigit)

/-- Numeric value of an integer-literal cell. -/
def intLitVal (s : String) : Int :=
  match s.data with
  | '-' :: ds => -(digitsVal ds : Int)
  | ds => (digitsVal ds : Int)

/-- Inferred pandas dtype of one parsed CSV column. -/
inductive ColKind where
  | intK
  | floatK
  | objK

/-- Column dtype inference: all present cells integer literals gives `int64`
(or `float64` when the column also has missing cells, including the all-missing
column); anything else keeps the cells as strings (`object`). -/
def kindOf (cells : List (Option String)) : ColKind :=
  let present := cells.filterMap id
  if present.all isIntLit then
    (if cells.all (·.isSome) && !present.isEmpty then .intK else .floatK)
  else .objK

/-- Convert one cell according to its column's inferred dtype; missing cells
become `NaN`, and integer cells of a float column become integral floats. -/
def convCell : ColKind → Option String → PyVal
  | _, Option.none => .nan
  | .intK, some s => .int (intLitVal s)
  | .floatK, some s => .float (intLitVal s)
  | .objK, some s => .str s

/-- An empty CSV field is read as missing (`NaN`) by pandas. -/
def normCell (s : String) : Option String :=
  if s = "" then Option.none else some s

/-- Physical lines of the CSV input with blank lines skipped
(`skip_blank_lines=True`). -/
def csvLines (content : String) : List (List Char) :=
  (splitChar '\n' content.data).filter (fun l => !l.isEmpty)

/-- First row strictly wider than the established width, with its 1-based
physical line number (the header is line 1), for pandas' tokenizer error. -/
def findBadRow (expected : Nat) : List (List (List Char)) → Nat → Option (Nat × Nat)
  | [], _ => Option.none
  | r :: rs, i =>
    if expected < r.length then some (i, r.length) else findBadRow expected rs (i + 1)

/-- Model of `pandas.read_csv(io.StringIO(content), delimiter=delim)` followed
by `DataFrame.to_dict('records')`, restricted to the fragment the converter
exercises: quote-free fields, `\n` line endings, integer or plain-string
cells.  Faithfully modelled pandas behaviours: duplicate header names are
renamed with `.k` suffixes (`dedup_names`); when the first data row has more
fields than the header, the leading extra columns become the implied row index
(and are dropped again by `to_dict('records')`); a later row wider than the
established width raises `ParserError`; short rows and empty fields are read
as `NaN`; an integer column containing missing values is promoted to float;
an input with no non-blank lines raises `EmptyDataError`. -/
def pd_read_csv (content : String) (delim : Char) :
    Except String (List (List (String × PyVal))) :=
  match csvLines content with
  | [] => .error "No columns to parse from file"
  | hl :: rest =>
    let header := dedup_names ((splitChar delim hl).map String.mk)
    let n := header.length
    match rest with
    | [] => .ok []
    | r1 :: _ =>
      let rows := rest.map (splitChar delim)
      let w := (splitChar delim r1).length
      let expected := max n w
      let nidx := w - n
      match findBadRow expected rows 2 with
      | some p =>
        .error ("Error tokenizing data. C error: Expected " ++ natStr expected ++
          " fields in line " ++ natStr p.1 ++ ", saw " ++ natStr p.2)
      | Option.none =>
        let cells : List (List (Option String)) := rows.map (fun r =>
          ((r.map (fun f => normCell (String.mk f))) ++
            List.replicate (expected - r.length) Option.none).drop nidx)
        let kinds := (List.range n).map (fun j =>
          kindOf (cells.map (fun row => row.getD j Option.none)))
        .ok (cells.map (fun row => List.zip header (List.zipWith convCell kinds row)))

/-- Source `new_converter.py:95` `parse_csv_data` (the source's `delimiter`
parameter defaults to `','`; the model takes it explicitly). -/
def parse_csv_data (content : String) (delim : Char) : PyVal × Option String :=
  match pd_read_csv content delim with
  | .ok recs => (.list (recs.map .dict), Option.none)
  | .error e => (.none, some ("Error parsing CSV: " ++ e))

/-- Source `new_converter.py:103` `parse_tsv_data`. -/
def parse_tsv_data (content : String) : PyVal × Option String :=
  parse_csv_data content '\t'

/-- Source `converter.py:121` `parse_csv_file` (body identical to
`parse_csv_data`), applied at its default comma delimiter. -/
def parse_csv_file (content : String) : PyVal × Option String :=
  parse_csv_data content ','

/-- Source `converter.py:129` `parse_tsv_file`. -/
def parse_tsv_file (content : String) : PyVal × Option String :=
  parse_csv_data content '\t'

/-- Column names of `pd.DataFrame(records)`: the union of the records' keys in
first-seen order. -/
def dfColumns (rs : List (List (String × PyVal))) : List String :=
  rs.foldl (fun acc r =>
    r.foldl (fun a kv => if a.contains kv.1 then a else a ++ [kv.1]) acc) []

/-- First value bound to a key in a record (records carry unique keys, as
Python dicts do). -/
def recGet (r : List (String × PyVal)) (k : String) : Option PyVal :=
  (r.find? (fun kv => kv.1 = k)).map (·.2)

/-- The cells of one DataFrame column, top to bottom, `NaN` where a record
lacks the field. -/
def dfColCells (rs : List (List (String × PyVal))) (k : String) : List PyVal :=
  rs.map (fun r => (recGet r k).getD .nan)

/-- Pandas dtype promotion when building a DataFrame: an all-integer column
stays `int64`, but an integer column containing `NaN` becomes `float64`, so
its integers become integral floats (`2` prints as `2.0`). -/
def promoteCol (cells : List PyVal) : List PyVal :=
  if cells.all (fun c => match c with | .int _ => true | _ => false) then cells
  else if cells.all (fun c => match c with | .int _ => true | .nan => true | _ => false) then
    cells.map (fun c => match c with | .int n => .float n | c2 => c2)
  else cells

/-- Model of `pd.DataFrame(records)` (column-major: ordered columns with their
cells), as built at `new_converter.py:427`. -/
def pd_DataFrame (rs : List (List (String × PyVal))) : List (String × List PyVal) :=
  (dfColumns rs).map (fun k => (k, promoteCol (dfColCells rs k)))

/-- Standard CSV field escaping as `DataFrame.to_csv` performs it: a field
containing the delimiter, a quote, or a line break is wrapped in double quotes
with inner quotes doubled. -/
def csvField (delim : Char) (s : String) : String :=
  if s.data.any (fun c => c = delim ∨ c = '"' ∨ c = '\n' ∨ c = '\r') then
    String.mk ('"' :: (s.data.flatMap (fun c => if c = '"' then ['"', '"'] else [c])) ++ ['"'])
  else s

/-- Rendering of one DataFrame cell in `to_csv` output: missing values print
as the empty string, integral floats with a trailing `.0`. -/
def csvCell (delim : Char) : PyVal → String
  | .nan => ""
  | .none => ""
  | .int n => intStr n
  | .float n => intStr n ++ ".0"
  | .bool true => "True"
  | .bool false => "False"
  | .str s => csvField delim s
  | v => csvField delim (pyStr v)

/-- Join fields with the delimiter. -/
def joinDelim (delim : Char) (fields : List String) : String :=
  String.intercalate (String.singleton delim) fields

/-- Model of `DataFrame.to_csv(index=False)` (with the given separator):
header row from the column names, then one `\n`-terminated line per row. -/
def df_to_csv (df : List (String × List PyVal)) (delim : Char) : String :=
  let nrows := (df.head?.map (fun c => c.2.length)).getD 0
  joinDelim delim (df.map (fun c => csvField delim c.1)) ++ "\n" ++
    String.join ((List.range nrows).map (fun i =>
      joinDelim delim (df.map (fun c => csvCell delim (c.2.getD i .nan))) ++ "\n"))

/-- Source `new_converter.py:152` `generate_csv_output`. -/
def generate_csv_output (df : List (String × List PyVal)) : String × String × String :=
  (df_to_csv df ',', "text/csv", ".csv")

/-- Source `new_converter.py:158` `generate_tsv_output`. -/
def generate_tsv_output (df : List (String × List PyVal)) : String × String × String :=
  (df_to_csv df '\t', "text/tab-separated-values", ".tsv")

/-- An XML element as `xml.etree.ElementTree` builds it for this program: a
tag, the text before any child (`""` when absent), and the child elements.
Attributes never occur in the trees the converter builds or reads. -/
structure XElem where
  tag : String
  text : String
  children : List XElem

/-- The grandchild element `generate_xml_output` builds for one record field:
tag is the field name with spaces replaced by underscores, text is the
stringified value with `None` mapped to the empty string. -/
def fieldElem (kv : String × PyVal) : XElem :=
  { tag := String.mk (kv.1.data.map (fun c => if c = ' ' then '_' else c)),
    text := match kv.2 with | .none => "" | v => pyStr v,
    children := [] }

/-- The `record_N` child elements (1-based index `i + 1`), mirroring the
`enumerate(data)` loop of `generate_xml_output`. -/
def recordElems : Nat → List (List (String × PyVal)) → List XElem
  | _, [] => []
  | i, r :: rs =>
    { tag := "record_" ++ natStr (i + 1), text := "", children := r.map fieldElem }
      :: recordElems (i + 1) rs

/-- The root element named `data` that `generate_xml_output` builds. -/
def xmlRoot (data : List (List (String × PyVal))) : XElem :=
  { tag := "data", text := "", children := recordElems 0 data }

/-- Text escaping performed by `ET.tostring`: `&`, `<` and `>` only. -/
def escXmlET (s : String) : String :=
  String.mk (s.data.flatMap (fun c =>
    if c = '&' then ['&', 'a', 'm', 'p', ';']
    else if c = '<' then ['&', 'l', 't', ';']
    else if c = '>' then ['&', 'g', 't', ';']
    else [c]))

/-- Text escaping performed by minidom's writer: `&`, `<`, `"` and `>`. -/
def escXmlDom (s : String) : String :=
  String.mk (s.data.flatMap (fun c =>
    if c = '&' then ['&', 'a', 'm', 'p', ';']
    else if c = '<' then ['&', 'l', 't', ';']
    else if c = '"' then ['&', 'q', 'u', 'o', 't', ';']
    else if c = '>' then ['&', 'g', 't', ';']
    else [c]))

mutual
/-- Compact serialization of an element as `ET.tostring(..., encoding='unicode')`
produces it: `<tag />` for an empty element, otherwise text then children with
no inserted whitespace. -/
def elemRough (e : XElem) : String :=
  match e with
  | ⟨tag, text, children⟩ =>
    if children.isEmpty && text = "" then "<" ++ tag ++ " />"
    else "<" ++ tag ++ ">" ++ escXmlET text ++ elemsRough children ++ "</" ++ tag ++ ">"

/-- Concatenated compact serializations of a list of elements. -/
def elemsRough : List XElem → String
  | [] => ""
  | e :: es => elemRough e ++ elemsRough es
end

mutual
/-- Pretty serialization of an element as minidom's
`toprettyxml(indent="  ")` renders the reparsed document: every element on its
own line at the current indentation, an element whose only content is text
rendered inline, an empty element as `<tag/>`.  (Faithful for the trees this
generator builds, which never mix text and children.) -/
def elemPretty (e : XElem) (ind : String) : String :=
  match e with
  | ⟨tag, text, children⟩ =>
    if children.isEmpty then
      (if text = "" then ind ++ "<" ++ tag ++ "/>" ++ "\n"
       else ind ++ "<" ++ tag ++ ">" ++ escXmlDom text ++ "</" ++ tag ++ ">" ++ "\n")
    else
      ind ++ "<" ++ tag ++ ">" ++ "\n" ++ elemsPretty children (ind ++ "  ") ++
        ind ++ "</" ++ tag ++ ">" ++ "\n"

/-- Pretty serializations of a list of elements, concatenated. -/
def elemsPretty : List XElem → String → String
  | [], _ => ""
  | e :: es, ind => elemPretty e ind ++ elemsPretty es ind
end

/-- Characters allowed after the first position of an XML name (ASCII model;
non-ASCII name characters do not occur in the converter's claims). -/
def validXmlNameChar (c : Char) : Bool :=
  c.isAlphanum || c = '_' || c = '-' || c = '.' || c = ':'

/-- Well-formed XML element name (ASCII model): nonempty, starting with a
letter, underscore or colon. -/
def validXmlName (s : String) : Bool :=
  match s.data with
  | [] => false
  | c :: rest => (c.isAlpha || c = '_' || c = ':') && rest.all validXmlNameChar

/-- Characters representable in XML text content. -/
def validXmlText (s : String) : Bool :=
  s.data.all (fun c => 32 ≤ c.toNat || c = '\t' || c = '\n' || c = '\r')

mutual
/-- Whether minidom's `parseString` accepts the compact serialization of the
element: exactly when every tag is a well-formed name and all text is
XML-representable (text markup characters are escaped by `ET.tostring`). -/
def elemOk (e : XElem) : Bool :=
  match e with
  | ⟨tag, text, children⟩ => validXmlName tag && validXmlText text && elemsOk children

/-- `elemOk` over a list of elements. -/
def elemsOk : List XElem → Bool
  | [] => true
  | e :: es => elemOk e && elemsOk es
end

/-- Source `new_converter.py:164` `generate_xml_output`: build a root element
named `data`, one `record_N` child per record (1-based), one grandchild per
field (spaces in names replaced by underscores, `None` text as the empty
string); serialize with `ET.tostring` and reparse with
`xml.dom.minidom.parseString` to pretty-print with two-space indentation.
When the reparse fails (some field name is not a well-formed XML name — the
model checks this with `elemOk`), the bare `except:` returns the compact
serialization instead. -/
def generate_xml_output (data : List (List (String × PyVal))) : String × String × String :=
  let root := xmlRoot data
  if elemOk root then
    ("<?xml version=\"1.0\" ?>\n" ++ elemPretty root "", "application/xml", ".xml")
  else (elemRough root, "application/xml", ".xml")

/-- Code-point lexicographic comparison of character lists — the order Python
uses to compare strings (PyYAML sorts mapping keys with it). -/
def charListLe : List Char → List Char → Bool
  | [], _ => true
  | _ :: _, [] => false
  | a :: as, b :: bs =>
    if a.toNat < b.toNat then true
    else if b.toNat < a.toNat then false
    else charListLe as bs

/-- Python's `<=` on strings. -/
def strLe (a b : String) : Bool := charListLe a.data b.data

/-- Insert a field into a key-sorted field list, keeping it sorted. -/
def insertByKey (p : String × PyVal) : List (String × PyVal) → List (String × PyVal)
  | [] => [p]
  | q :: qs => if strLe q.1 p.1 then q :: insertByKey p qs else p :: q :: qs

/-- Sort a record's fields by key — the `mapping = sorted(mapping.items())`
step of PyYAML's `represent_mapping` (with unique keys the values are never
compared). -/
def sortByKey : List (String × PyVal) → List (String × PyVal)
  | [] => []
  | p :: ps => insertByKey p (sortByKey ps)

/-- PyYAML scalar rendering for the plain style (model restricted to scalars
that need no quoting: the converter's claims only exercise such values;
`allow_unicode=True` leaves non-ASCII characters intact). -/
def yamlScalar : PyVal → String
  | .none => "null"
  | .bool true => "true"
  | .bool false => "false"
  | .int n => intStr n
  | .float n => intStr n ++ ".0"
  | .nan => ".nan"
  | .str s => s
  | v => pyStr v

/-- Block rendering of one record as an item of a YAML sequence: keys sorted
(PyYAML's `sort_keys` default), first pair after `"- "`, later pairs indented
two spaces; the empty record renders as a flow `- \x7b\x7d`. -/
def yamlRecordBlock (r : List (String × PyVal)) : String :=
  match sortByKey r with
  | [] => "- \x7b\x7d\n"
  | f :: fs =>
    "- " ++ f.1 ++ ": " ++ yamlScalar f.2 ++ "\n" ++
      String.join (fs.map (fun g => "  " ++ g.1 ++ ": " ++ yamlScalar g.2 ++ "\n"))

/-- Model of `yaml.dump(data, default_flow_style=False, allow_unicode=True)`
on a record set: a block-style sequence of mappings with the keys of each
mapping sorted (PyYAML sorts keys by default); the empty list renders flow. -/
def yaml_dump (data : List (List (String × PyVal))) : String :=
  match data with
  | [] => "[]\n"
  | _ => String.join (data.map yamlRecordBlock)

/-- Source `new_converter.py:183` `generate_yaml_output`. -/
def generate_yaml_output (data : List (List (String × PyVal))) : String × String × String :=
  (yaml_dump data, "application/x-yaml", ".yaml")

/-- Block rendering of one record in the record's own field order — the
rendering the specification describes for the YAML generator.  Declared only
to compare the implementation against the spec's words. -/
def yamlSpecFieldOrderBlock (r : List (String × PyVal)) : String :=
  match r with
  | [] => "- \x7b\x7d\n"
  | f :: fs =>
    "- " ++ f.1 ++ ": " ++ yamlScalar f.2 ++ "\n" ++
      String.join (fs.map (fun g => "  " ++ g.1 ++ ": " ++ yamlScalar g.2 ++ "\n"))

/-- YAML scalar reading for the modelled subset: integer literals become
ints, everything else stays a string. -/
def yamlReadScalar (s : String) : PyVal :=
  if isIntLit s then .int (intLitVal s) else .str s

/-- Read a `key: value` mapping line of the modelled YAML subset. -/
def yamlMapLine (l : String) : Option (String × PyVal) :=
  match l.splitOn ": " with
  | k :: v1 :: vs => some (k.trim, yamlReadScalar (String.intercalate ": " (v1 :: vs)))
  | _ => Option.none

/-- Fold the lines of a block sequence of flat mappings: `- k: v` starts a new
record, `  k: v` extends the last one. -/
def yamlSeqGo : List String → List (List (String × PyVal)) → Option (List (List (String × PyVal)))
  | [], acc => some acc.reverse
  | l :: ls, acc =>
    if l.startsWith "- " then
      match yamlMapLine (l.drop 2) with
      | some kv => yamlSeqGo ls ([kv] :: acc)
      | Option.none => Option.none
    else
      match acc, yamlMapLine (l.drop 2) with
      | r :: rs, some kv => yamlSeqGo ls ((r ++ [kv]) :: rs)
      | _, _ => Option.none

/-- Model of `yaml.safe_load` restricted to the document shapes this
development evaluates it on.  Faithfully modelled PyYAML behaviours: a literal
tab character outside quoted scalars cannot start a token and is excluded from
plain scalars, so the scanner raises (`found character '\t' that cannot start
any token`); an effectively empty document loads as `None`; a block sequence
of flat `key: value` mappings loads as a list of dicts; a document of
`key: value` lines loads as a dict; any other modelled document is a plain
scalar and loads as a string. -/
def yaml_safe_load (s : String) : Except String PyVal :=
  if s.data.contains '\t' then
    .error "while scanning for the next token\nfound character that cannot start any token"
  else
    let ls := (s.splitOn "\n").filter (fun l => l.trim ≠ "")
    match ls with
    | [] => .ok .none
    | l0 :: _ =>
      if l0.startsWith "- " ∧ ls.all (fun l => l.startsWith "- " ∨ l.startsWith "  ") then
        match yamlSeqGo ls [] with
        | some recs => .ok (.list (recs.map .dict))
        | Option.none => .ok (.str s.trim)
      else if ls.all (fun l => (yamlMapLine l).isSome) then
        .ok (.dict (ls.filterMap yamlMapLine))
      else .ok (.str s.trim)

/-- Source `new_converter.py:134` `parse_yaml_data`: a loaded list is returned
as-is, a loaded mapping is wrapped in a one-element list, any other shape is
reported as unusable, and a `YAMLError` is reported as invalid YAML. -/
def parse_yaml_data (content : String) : PyVal × Option String :=
  match yaml_safe_load content with
  | .ok (.list xs) => (.list xs, Option.none)
  | .ok (.dict kvs) => (.list [.dict kvs], Option.none)
  | .ok _ => (.none, some "YAML must contain a list of objects or a single object")
  | .error e => (.none, some ("Invalid YAML format: " ++ e))

/-- Source `converter.py:168` `parse_yaml_file` (body identical to
`parse_yaml_data`). -/
def parse_yaml_file (content : String) : PyVal × Option String :=
  parse_yaml_data content

/-- Longest prefix of XML name characters with the remaining suffix. -/
def takeName : List Char → List Char × List Char
  | [] => ([], [])
  | c :: cs =>
    if validXmlNameChar c then
      let r := takeName cs
      (c :: r.1, r.2)
    else ([], c :: cs)

/-- Character data up to the next markup character. -/
def takeText : List Char → List Char × List Char
  | [] => ([], [])
  | c :: cs =>
    if c = '<' then ([], c :: cs)
    else
      let r := takeText cs
      (c :: r.1, r.2)

mutual
/-- Model of expat's element parsing as `ET.fromstring` uses it, restricted to
the fragment the converter exercises: elements without attributes, comments,
processing instructions or entity references.  Leading text before a child
becomes the element's `text`; text between or after children (ET's `tail`) is
discarded, since the converter never reads it.  Any malformed input is a
`ParseError`. -/
def xmlElem : Nat → List Char → Except String (XElem × List Char)
  | 0, _ => .error "syntax error"
  | fuel + 1, cs =>
    if cs.head? = some '<' then
      let p := takeName cs.tail
      if p.1.isEmpty then .error "syntax error"
      else
        let r := skipWs p.2
        if r.head? = some '/' ∧ r.tail.head? = some '>' then
          .ok ({ tag := String.mk p.1, text := "", children := [] }, r.tail.tail)
        else if r.head? = some '>' then
          let t := takeText r.tail
          match xmlChildren fuel t.2 with
          | .error e => .error e
          | .ok (chs, r2) =>
            let q := takeName (r2.drop 2)
            if r2.head? = some '<' ∧ r2.tail.head? = some '/' ∧ q.1 = p.1 ∧
                (skipWs q.2).head? = some '>' then
              .ok ({ tag := String.mk p.1, text := String.mk t.1, children := chs },
                (skipWs q.2).tail)
            else .error "mismatched tag"
        else .error "syntax error"
    else .error "syntax error"

/-- Child elements up to the parent's closing tag. -/
def xmlChildren : Nat → List Char → Except String (List XElem × List Char)
  | 0, _ => .error "syntax error"
  | fuel + 1, cs =>
    if cs.head? = some '<' ∧ cs.tail.head? = some '/' then .ok ([], cs)
    else
      match xmlElem fuel cs with
      | .error e => .error e
      | .ok (e, r) =>
        let t := takeText r
        (xmlChildren fuel t.2).map (fun q => (e :: q.1, q.2))
end

/-- Model of `ET.fromstring`: one root element, optionally surrounded by
whitespace; anything else is a `ParseError`. -/
def ET_fromstring (s : String) : Except String XElem :=
  match xmlElem (s.length + 1) (skipWs s.data) with
  | .error e => .error e
  | .ok (e, rest) =>
    match skipWs rest with
    | [] => .ok e
    | _ => .error "junk after document element"

/-- Python dict assignment `record[k] = v`: overwrite an existing key in
place, otherwise append. -/
def pyDictSet (r : List (String × PyVal)) (k : String) (v : PyVal) : List (String × PyVal) :=
  if r.any (fun kv => kv.1 = k) then r.map (fun kv => if kv.1 = k then (k, v) else kv)
  else r ++ [(k, v)]

/-- The record `parse_xml_file` builds from one root-level child: tag/text
pairs of its children when it has any, otherwise its own tag/text pair. -/
def xmlRecordOfChild (child : XElem) : List (String × PyVal) :=
  if child.children.isEmpty then [(child.tag, .str child.text)]
  else child.children.foldl (fun acc sub => pyDictSet acc sub.tag (.str sub.text)) []

/-- Source `new_converter.py:107` `parse_xml_data` (and `converter.py:133`
`parse_xml_file`, whose body differs only by an extra generic exception
guard): root-level children become records; a childless root yields a single
empty record (the loop over the root's children runs zero times). -/
def parse_xml_data (content : String) : PyVal × Option String :=
  match ET_fromstring content with
  | .error e => (.none, some ("Invalid XML format: " ++ e))
  | .ok root =>
    match root.children with
    | [] => (.list [.dict []], Option.none)
    | chs => (.list (chs.map (fun c => .dict (xmlRecordOfChild c))), Option.none)

/-- Source `converter.py:133` `parse_xml_file`. -/
def parse_xml_file (content : String) : PyVal × Option String :=
  parse_xml_data content

/-- Success test on the modelled library calls (Python `try`/`except`). -/
def isOkE {α β : Type} : Except α β → Bool
  | .ok _ => true
  | .error _ => false

/-- Source `converter.py:72` `detect_format_from_content`: bracket-delimited
text that parses as JSON is JSON; angle-bracket-delimited text that parses as
XML is XML; text matching the YAML heuristic (`- ` items together with a
colon, or more colons than commas plus a newline) that loads as YAML is YAML;
otherwise, with more than one line, the first line's tab/comma counts decide
TSV/CSV; otherwise Unknown.  Every library call is wrapped in `try`/`except`,
so the function is total and never raises. -/
def detect_format_from_content (content0 : String) : String :=
  let content := content0.trim
  if ((content.startsWith "[" && content.endsWith "]") ||
      (content.startsWith (String.singleton '\x7b') &&
       content.endsWith (String.singleton '\x7d'))) &&
     isOkE (json_loads content) then "JSON"
  else if content.startsWith "<" && content.endsWith ">" &&
      isOkE (ET_fromstring content) then "XML"
  else if ((containsSub content "- " && content.contains ':') ||
      (decide (countChar ',' content < countChar ':' content) && content.contains '\n')) &&
      isOkE (yaml_safe_load content) then "YAML"
  else
    match splitChar '\n' content.data with
    | [] => "Unknown"
    | first :: restLines =>
      if restLines.isEmpty then "Unknown"
      else
        let commaCount := first.count ','
        let tabCount := first.count '\t'
        if commaCount < tabCount && decide (0 < tabCount) then "TSV"
        else if decide (0 < commaCount) then "CSV"
        else "Unknown"

/-- One step of the auto-detection fallback loop: run the parser, break when
its data is not `None`, otherwise continue carrying the latest `(data, error)`
pair. -/
def tryLoop (t : String) :
    List (String × (String → PyVal × Option String)) → PyVal × Option String → PyVal × Option String
  | [], acc => acc
  | (_, p) :: rest, _ =>
    let r := p t
    if pyIsNone r.1 then tryLoop t rest r else r

/-- The auto-detection fallback of `converter.py` `main` (lines 432-445): when
detection returns Unknown, try the parsers in the fixed order JSON, CSV, TSV,
XML, YAML and break at the first whose data is not `None`; after the loop
`data` and `error` hold the values of the last parser attempted, so when all
fail only the final (YAML) error survives. -/
def try_all_parsers (t : String) : PyVal × Option String :=
  tryLoop t
    [("JSON", parse_json_file), ("CSV", parse_csv_file), ("TSV", parse_tsv_file),
     ("XML", parse_xml_file), ("YAML", parse_yaml_file)]
    (PyVal.none, Option.none)

/-- The paste-input handling of `new_converter.py` `main` (lines 415-421) for
JSON input: on `data is not None` the data is accepted, otherwise the app
displays the message `"❌ " + str(error)` — which is `"❌ None"` when the
parser returned no error message at all (Python interpolates `None`). -/
def main_paste_json_outcome (t : String) : PyVal ⊕ String :=
  let r := parse_json_data t
  if pyIsNone r.1 then
    .inr ("❌ " ++ (match r.2 with | some e => e | Option.none => "None"))
  else .inl r.1

/-- Condition on the suffix that follows a numeric token: nothing that could
extend the token into a longer number or float literal. -/
def numStopOk (cs : List Char) : Prop :=
  ∀ c, cs.head? = some c → (c.isDigit = false ∧ c ≠ '.' ∧ c ≠ 'e' ∧ c ≠ 'E')

/-- Scalar values in the canonical record model. -/
def isScalar : PyVal → Bool
  | .none => true
  | .bool _ => true
  | .int _ => true
  | .str _ => true
  | _ => false

/-- All field values of a record are scalars. -/
def recOk (r : List (String × PyVal)) : Bool :=
  r.all (fun kv => isScalar kv.2)

/-- Record-set shape of a parsed JSON value: a list of flat dicts with scalar
field values. -/
def recsOk : List PyVal → Bool
  | [] => true
  | .dict kvs :: vs => recOk kvs && recsOk vs
  | _ => false

/-- Parser fuel needed for a list of record values: one unit per structural
step, which the dump's character count always dominates. -/
def itemsFuel : List PyVal → Nat
  | [] => 0
  | .dict kvs :: vs => kvs.length + 3 + itemsFuel vs
  | _ :: vs => 1 + itemsFuel vs

/-- An input on which all five fallback parsers fail: commas and tabs are both
ragged (CSV and TSV see a third line wider than the first two), it is not
JSON or XML, and the tab makes PyYAML's scanner raise. -/
def allFailInput : String := "a,b\tx\nc,d\ty\ne,f,g\tz\tw"

theorem natCharsAux_acc (fuel : Nat) : ∀ (n : Nat) (acc : List Char),
    natCharsAux fuel n acc = natCharsAux fuel n [] ++ acc := by
  induction fuel with
  | zero => intro n acc; simp [natCharsAux]
  | succ fuel ih =>
    intro n acc
    simp only [natCharsAux]
    split
    · rfl
    · rw [ih (n / 10) (Char.ofNat (48 + n % 10) :: acc),
        ih (n / 10) [Char.ofNat (48 + n % 10)]]
      simp

theorem natCharsAux_extra : ∀ (n f1 f2 : Nat) (acc : List Char), n < f1 → n < f2 →
    natCharsAux f1 n acc = natCharsAux f2 n acc := by
  intro n
  induction n using Nat.strong_induction_on with
  | _ n ih =>
    intro f1 f2 acc h1 h2
    match f1, f2 with
    | g1 + 1, g2 + 1 =>
      simp only [natCharsAux]
      split
      · rfl
      · exact ih (n / 10) (Nat.div_lt_self (by omega) (by omega)) g1 g2 _
          (by omega) (by omega)

theorem natToChars_lt {n : Nat} (h : n < 10) : natToChars n = [Char.ofNat (48 + n)] := by
  simp only [natToChars, natCharsAux, if_pos h]
  rw [Nat.mod_eq_of_lt h]

theorem natToChars_ge {n : Nat} (h : 10 ≤ n) :
    natToChars n = natToChars (n / 10) ++ [Char.ofNat (48 + n % 10)] := by
  conv_lhs => rw [natToChars]
  rw [natCharsAux]
  rw [if_neg (by omega), natCharsAux_acc,
    natCharsAux_extra (n / 10) n (n / 10 + 1) []
      (Nat.div_lt_self (by omega) (by omega)) (Nat.lt_succ_self _)]
  rfl

theorem digitCharFacts : ∀ d : Nat, d < 10 →
    ((Char.ofNat (48 + d)).isDigit = true ∧ (Char.ofNat (48 + d)).toNat = 48 + d) := by
  decide

theorem natToChars_ne_nil (n : Nat) : natToChars n ≠ [] := by
  by_cases h : n < 10
  · rw [natToChars_lt h]; simp
  · rw [natToChars_ge (by omega)]; simp

theorem natToChars_digits : ∀ (n : Nat), ∀ c ∈ natToChars n, c.isDigit = true := by
  intro n
  induction n using Nat.strong_induction_on with
  | _ n ih =>
    by_cases h : n < 10
    · rw [natToChars_lt h]
      intro c hc
      simp at hc
      subst hc
      exact (digitCharFacts n h).1
    · rw [natToChars_ge (by omega)]
      intro c hc
      rcases List.mem_append.mp hc with h1 | h1
      · exact ih (n / 10) (Nat.div_lt_self (by omega) (by omega)) c h1
      · simp at h1
        subst h1
        exact (digitCharFacts (n % 10) (Nat.mod_lt _ (by omega))).1

theorem charOfNatDigit_ne_zero : ∀ d : Nat, 1 ≤ d → d < 10 →
    Char.ofNat (48 + d) ≠ '0' := by decide

theorem natToChars_head_ne_zero : ∀ (n : Nat), 1 ≤ n →
    ∀ c, (natToChars n).head? = some c → c ≠ '0' := by
  intro n
  induction n using Nat.strong_induction_on with
  | _ n ih =>
    intro hpos c hc
    by_cases h : n < 10
    · rw [natToChars_lt h] at hc
      simp at hc
      subst hc
      exact charOfNatDigit_ne_zero n hpos h
    · rw [natToChars_ge (by omega)] at hc
      rw [List.head?_append_of_ne_nil _ (natToChars_ne_nil (n / 10))] at hc
      exact ih (n / 10) (Nat.div_lt_self (by omega) (by omega))
        (Nat.one_le_div_iff (by omega) |>.mpr (by omega)) c hc

theorem digitsVal_append_one (ds : List Char) (c : Char) :
    digitsVal (ds ++ [c]) = 10 * digitsVal ds + digitVal c := by
  simp [digitsVal, List.foldl_append, Nat.mul_comm]

theorem digitsVal_natToChars : ∀ (n : Nat), digitsVal (natToChars n) = n := by
  intro n
  induction n using Nat.strong_induction_on with
  | _ n ih =>
    by_cases h : n < 10
    · rw [natToChars_lt h]
      simp [digitsVal, digitVal, (digitCharFacts n h).2]
    · rw [natToChars_ge (by omega), digitsVal_append_one,
        ih (n / 10) (Nat.div_lt_self (by omega) (by omega))]
      have : digitVal (Char.ofNat (48 + n % 10)) = n % 10 := by
        simp [digitVal, (digitCharFacts (n % 10) (Nat.mod_lt _ (by omega))).2]
      omega

theorem takeDigits_append : ∀ (ds rest : List Char), (∀ c ∈ ds, c.isDigit = true) →
    (∀ c, rest.head? = some c → c.isDigit = false) →
    takeDigits (ds ++ rest) = (ds, rest) := by
  intro ds
  induction ds with
  | nil =>
    intro rest _ hrest
    match rest with
    | [] => rfl
    | c :: t =>
      simp only [List.nil_append, takeDigits]
      rw [if_neg]
      simp [hrest c rfl]
  | cons c cs ih =>
    intro rest hds hrest
    have h2 := ih rest (fun x hx => hds x (by simp [hx])) hrest
    simp only [List.cons_append, takeDigits, if_pos (hds c (by simp)), List.append_eq, h2]

theorem digit_not_special : ∀ c : Char, c.isDigit = true →
    (c ≠ '-' ∧ c ≠ 'n' ∧ c ≠ 't' ∧ c ≠ 'f' ∧ c ≠ '"' ∧ c ≠ '[' ∧ c ≠ '\x7b' ∧
     isJsonWs c = false) := by
  intro c hc
  have hb : 48 ≤ c.toNat ∧ c.toNat ≤ 57 := by
    simp [Char.isDigit, decide_eq_true_eq] at hc
    rcases hc with ⟨h1, h2⟩
    constructor
    · exact h1
    · exact h2
  have hws : c ≠ ' ' ∧ c ≠ '\t' ∧ c ≠ '\n' ∧ c ≠ '\r' := by
    refine ⟨?_, ?_, ?_, ?_⟩ <;> (intro h; subst h; revert hb; decide)
  refine ⟨?_, ?_, ?_, ?_, ?_, ?_, ?_, ?_⟩
  · intro h; subst h; revert hb; decide
  · intro h; subst h; revert hb; decide
  · intro h; subst h; revert hb; decide
  · intro h; subst h; revert hb; decide
  · intro h; subst h; revert hb; decide
  · intro h; subst h; revert hb; decide
  · intro h; subst h; revert hb; decide
  · simp [isJsonWs, hws.1, hws.2.1, hws.2.2.1, hws.2.2.2]

theorem parseNumBody_natToChars (neg : Bool) (m : Nat) (rest : List Char)
    (hstop : numStopOk rest) :
    parseNumBody neg (natToChars m ++ rest) =
      .ok (.int (if neg then -(m : Int) else (m : Int)), rest) := by
  have htd : takeDigits (natToChars m ++ rest) = (natToChars m, rest) :=
    takeDigits_append _ _ (natToChars_digits m) (fun c hc => (hstop c hc).1)
  simp only [parseNumBody, htd]
  rw [if_neg (by simp [natToChars_ne_nil m])]
  rw [if_neg ?hz]
  case hz =>
    intro ⟨h1, h2⟩
    by_cases hm : m < 10
    · rw [natToChars_lt hm] at h2; simp at h2
    · exact natToChars_head_ne_zero m (by omega) '0'
        (by rw [← h1]) rfl
  rw [if_neg ?hf]
  case hf =>
    intro h
    rcases h with h | h | h <;> exact absurd h (by
      intro hh
      rcases hq : rest.head? with _ | c
      · rw [hq] at hh; simp at hh
      · rw [hq] at hh
        simp at hh
        have := hstop c hq
        subst hh
        simp at this)
  rw [digitsVal_natToChars]
  cases neg <;> simp

theorem parseNum_intChars (n : Int) (rest : List Char) (hstop : numStopOk rest) :
    parseNum (intChars n ++ rest) = .ok (.int n, rest) := by
  by_cases hn : n < 0
  · simp only [intChars, if_pos hn, parseNum, List.cons_append]
    rw [if_pos (by simp)]
    simp only [List.tail_cons]
    rw [parseNumBody_natToChars true ((-n).toNat) rest hstop]
    have he : -(((-n).toNat : Int)) = n := by omega
    simp only [if_pos rfl, he, if_true]
  · simp only [intChars, if_neg hn, parseNum]
    rw [if_neg ?hd]
    case hd =>
      intro h
      rcases hq : (natToChars n.toNat ++ rest).head? with _ | c
      · rw [hq] at h; simp at h
      · rw [hq] at h
        simp at h
        subst h
        rw [List.head?_append_of_ne_nil _ (natToChars_ne_nil _)] at hq
        have hd := natToChars_digits n.toNat _ (List.mem_of_mem_head? hq)
        exact (digit_not_special _ hd).1 rfl
    rw [parseNumBody_natToChars false n.toNat rest hstop]
    have he : ((n.toNat : Int)) = n := by omega
    simp only [Bool.false_eq_true, if_false, he]

theorem skipWs_cons_not_ws {c : Char} (h : isJsonWs c = false) (t : List Char) :
    skipWs (c :: t) = c :: t := by
  simp [skipWs, h]

theorem skipWs_ws_append {p : List Char} (h : ∀ c ∈ p, isJsonWs c = true)
    (t : List Char) : skipWs (p ++ t) = skipWs t := by
  induction p with
  | nil => rfl
  | cons c cs ih =>
    simp only [List.cons_append, skipWs, if_pos (h c (by simp))]
    exact ih (fun x hx => h x (by simp [hx]))

theorem jsonPad_ws : ∀ d, ∀ c ∈ (jsonPad d).data, isJsonWs c = true := by
  intro d c hc
  simp only [jsonPad] at hc
  have := List.eq_of_mem_replicate hc
  subst this
  rfl

theorem parseVal_ws_lead (fuel : Nat) {p : List Char} (h : ∀ c ∈ p, isJsonWs c = true)
    (t : List Char) : parseVal fuel (p ++ t) = parseVal fuel t := by
  match fuel with
  | 0 => rfl
  | fuel + 1 =>
    simp only [parseVal]
    rw [skipWs_ws_append h]

theorem parseItems_ws_lead (fuel : Nat) {p : List Char} (h : ∀ c ∈ p, isJsonWs c = true)
    (t : List Char) : parseItems fuel (p ++ t) = parseItems fuel t := by
  match fuel with
  | 0 => rfl
  | fuel + 1 =>
    simp only [parseItems]
    rw [parseVal_ws_lead fuel h]

theorem parseMembers_ws_lead (fuel : Nat) {p : List Char} (h : ∀ c ∈ p, isJsonWs c = true)
    (t : List Char) : parseMembers fuel (p ++ t) = parseMembers fuel t := by
  match fuel with
  | 0 => rfl
  | fuel + 1 =>
    simp only [parseMembers]
    rw [skipWs_ws_append h]

theorem skipWs_cons_ws {c : Char} (h : isJsonWs c = true) (t : List Char) :
    skipWs (c :: t) = skipWs t := by
  simp [skipWs, h]

theorem parseVal_cons_ws (fuel : Nat) {c : Char} (h : isJsonWs c = true)
    (t : List Char) : parseVal fuel (c :: t) = parseVal fuel t := by
  match fuel with
  | 0 => rfl
  | fuel + 1 =>
    simp only [parseVal]
    rw [skipWs_cons_ws h]

theorem parseMembers_cons_ws (fuel : Nat) {c : Char} (h : isJsonWs c = true)
    (t : List Char) : parseMembers fuel (c :: t) = parseMembers fuel t := by
  match fuel with
  | 0 => rfl
  | fuel + 1 =>
    simp only [parseMembers]
    rw [skipWs_cons_ws h]

theorem parseItems_cons_ws (fuel : Nat) {c : Char} (h : isJsonWs c = true)
    (t : List Char) : parseItems fuel (c :: t) = parseItems fuel t := by
  match fuel with
  | 0 => rfl
  | fuel + 1 =>
    simp only [parseItems]
    rw [parseVal_cons_ws fuel h]

theorem hexVal_hexDigitChar : ∀ k : Nat, k < 16 → hexVal (hexDigitChar k) = some k := by
  decide

theorem charOfNat_toNat (c : Char) : Char.ofNat c.toNat = c := Char.ofNat_toNat c

theorem strMk_data (s : String) : String.mk s.data = s := rfl

theorem parseStrBody_esc : ∀ (l rest : List Char),
    parseStrBody (escChars l ++ ('"' :: rest)) = .ok (l, rest) := by
  intro l
  induction l with
  | nil =>
    intro rest
    simp only [escChars, List.nil_append]
    rw [parseStrBody.eq_def]
    simp
  | cons c cs ih =>
    intro rest
    simp only [escChars, List.append_assoc]
    by_cases h1 : c = '"'
    · subst h1
      rw [show escChar '"' = ['\\', '"'] by decide]
      simp only [List.cons_append]
      rw [parseStrBody.eq_def]
      simp [ih rest, Except.map]
    · by_cases h2 : c = '\\'
      · subst h2
        rw [show escChar '\\' = ['\\', '\\'] by decide]
        simp only [List.cons_append]
        rw [parseStrBody.eq_def]
        simp [ih rest, Except.map]
      · by_cases h3 : c = '\n'
        · subst h3
          rw [show escChar '\n' = ['\\', 'n'] by decide]
          simp only [List.cons_append]
          rw [parseStrBody.eq_def]
          simp [ih rest, Except.map]
        · by_cases h4 : c = '\t'
          · subst h4
            rw [show escChar '\t' = ['\\', 't'] by decide]
            simp only [List.cons_append]
            rw [parseStrBody.eq_def]
            simp [ih rest, Except.map]
          · by_cases h5 : c = '\r'
            · subst h5
              rw [show escChar '\r' = ['\\', 'r'] by decide]
              simp only [List.cons_append]
              rw [parseStrBody.eq_def]
              simp [ih rest, Except.map]
            · by_cases h6 : c = '\x08'
              · subst h6
                rw [show escChar '\x08' = ['\\', 'b'] by decide]
                simp only [List.cons_append]
                rw [parseStrBody.eq_def]
                simp [ih rest, Except.map]
              · by_cases h7 : c = '\x0c'
                · subst h7
                  rw [show escChar '\x0c' = ['\\', 'f'] by decide]
                  simp only [List.cons_append]
                  rw [parseStrBody.eq_def]
                  simp [ih rest, Except.map]
                · by_cases h8 : c.toNat < 32
                  · rw [show escChar c = '\\' :: 'u' :: toHex4 c.toNat by
                      simp only [escChar]
                      rw [if_neg h1, if_neg h2, if_neg h3, if_neg h4, if_neg h5, if_neg h6,
                        if_neg h7, if_pos h8]]
                    simp only [toHex4, List.cons_append]
                    rw [parseStrBody.eq_def]
                    simp only [hexVal_hexDigitChar (c.toNat / 4096 % 16)
                        (Nat.mod_lt _ (by omega)),
                      hexVal_hexDigitChar (c.toNat / 256 % 16) (Nat.mod_lt _ (by omega)),
                      hexVal_hexDigitChar (c.toNat / 16 % 16) (Nat.mod_lt _ (by omega)),
                      hexVal_hexDigitChar (c.toNat % 16) (Nat.mod_lt _ (by omega))]
                    have hsum : c.toNat / 4096 % 16 * 4096 + c.toNat / 256 % 16 * 256 +
                        c.toNat / 16 % 16 * 16 + c.toNat % 16 = c.toNat := by omega
                    simp only [hsum]
                    simp [if_pos (show c.toNat < 55296 by omega), charOfNat_toNat c, ih rest, Except.map]
                  · rw [show escChar c = [c] by
                      simp only [escChar]
                      rw [if_neg h1, if_neg h2, if_neg h3, if_neg h4, if_neg h5, if_neg h6,
                        if_neg h7, if_neg h8]]
                    simp only [List.cons_append, List.nil_append]
                    rw [parseStrBody.eq_def]
                    simp [h1, h2, h8, ih rest, Except.map]

theorem take_head {α : Type} (l : List α) (k : Nat) (x : α) (xs : List α)
    (h : l.take (k + 1) = x :: xs) : l.head? = some x := by
  cases l with
  | nil => simp [List.take] at h
  | cons y t =>
    simp only [List.take] at h
    injection h with h1 _
    simp [h1]

theorem intChars_head : ∀ n : Int, ∀ c, (intChars n ++ (r : List Char)).head? = some c →
    (c = '-' ∨ c.isDigit = true) := by
  intro n c h
  by_cases hn : n < 0
  · simp only [intChars, if_pos hn, List.cons_append, List.head?_cons] at h
    injection h with h
    exact Or.inl h.symm
  · simp only [intChars, if_neg hn] at h
    rw [List.head?_append_of_ne_nil _ (natToChars_ne_nil _)] at h
    exact Or.inr (natToChars_digits _ _ (List.mem_of_mem_head? h))

theorem head_not_special {c : Char} (h : c = '-' ∨ c.isDigit = true) :
    (c ≠ 'n' ∧ c ≠ 't' ∧ c ≠ 'f' ∧ c ≠ '"' ∧ c ≠ '[' ∧ c ≠ '\x7b' ∧
     isJsonWs c = false) := by
  rcases h with h | h
  · subst h
    refine ⟨by decide, by decide, by decide, by decide, by decide, by decide, by decide⟩
  · have := digit_not_special c h
    exact ⟨this.2.1, this.2.2.1, this.2.2.2.1, this.2.2.2.2.1, this.2.2.2.2.2.1,
      this.2.2.2.2.2.2.1, this.2.2.2.2.2.2.2⟩

theorem parseVal_int (n : Int) (fuel : Nat) (rest : List Char) (hstop : numStopOk rest) :
    parseVal (fuel + 1) (intChars n ++ rest) = .ok (.int n, rest) := by
  have hne : intChars n ≠ [] := by
    by_cases hn : n < 0
    · simp [intChars, if_pos hn]
    · simp [intChars, if_neg hn, natToChars_ne_nil]
  rcases hh : (intChars n ++ rest).head? with _ | c0
  · rw [List.head?_append_of_ne_nil _ hne] at hh
    rcases he : intChars n with _ | ⟨x, xs⟩
    · exact absurd he hne
    · rw [he] at hh; simp at hh
  · have hc0 := intChars_head n c0 hh
    have hsp := head_not_special hc0
    rcases he : intChars n ++ rest with _ | ⟨x, xs⟩
    · rw [he] at hh; simp at hh
    · rw [he] at hh
      simp only [List.head?_cons] at hh
      injection hh with hh
      subst hh
      simp only [parseVal]
      rw [skipWs_cons_not_ws hsp.2.2.2.2.2.2]
      rw [if_neg (fun hcon => hsp.1 (by
        have := take_head _ _ _ _ hcon
        simp at this
        exact this))]
      rw [if_neg (fun hcon => hsp.2.1 (by
        have := take_head _ _ _ _ hcon
        simp at this
        exact this))]
      rw [if_neg (fun hcon => hsp.2.2.1 (by
        have := take_head _ _ _ _ hcon
        simp at this
        exact this))]
      rw [if_neg (by simp; exact hsp.2.2.2.1)]
      rw [if_neg (by simp; intro hcon; subst hcon; exact hsp.2.2.2.2.1 rfl)]
      rw [if_neg (by simp; intro hcon; subst hcon; exact hsp.2.2.2.2.2.1 rfl)]
      rw [← he]
      exact parseNum_intChars n rest hstop

theorem parseVal_none (d fuel : Nat) (rest : List Char) :
    parseVal (fuel + 1) ((dumpVal .none d).data ++ rest) = .ok (.none, rest) := by
  rw [show (dumpVal PyVal.none d).data = ['n', 'u', 'l', 'l'] from rfl]
  simp only [List.cons_append, List.nil_append, parseVal]
  rw [skipWs_cons_not_ws (by decide)]
  simp [List.take, List.drop]

theorem parseVal_true (d fuel : Nat) (rest : List Char) :
    parseVal (fuel + 1) ((dumpVal (.bool true) d).data ++ rest) = .ok (.bool true, rest) := by
  rw [show (dumpVal (PyVal.bool true) d).data = ['t', 'r', 'u', 'e'] from rfl]
  simp only [List.cons_append, List.nil_append, parseVal]
  rw [skipWs_cons_not_ws (by decide)]
  simp [List.take, List.drop]

theorem parseVal_false (d fuel : Nat) (rest : List Char) :
    parseVal (fuel + 1) ((dumpVal (.bool false) d).data ++ rest) = .ok (.bool false, rest) := by
  rw [show (dumpVal (PyVal.bool false) d).data = ['f', 'a', 'l', 's', 'e'] from rfl]
  simp only [List.cons_append, List.nil_append, parseVal]
  rw [skipWs_cons_not_ws (by decide)]
  simp [List.take, List.drop]

theorem parseVal_str (s : String) (d fuel : Nat) (rest : List Char) :
    parseVal (fuel + 1) ((dumpVal (.str s) d).data ++ rest) = .ok (.str s, rest) := by
  rw [show (dumpVal (PyVal.str s) d).data = '"' :: (escChars s.data ++ ['"']) from rfl]
  simp only [List.cons_append, List.append_assoc, List.cons_append, List.nil_append, parseVal]
  rw [skipWs_cons_not_ws (by decide)]
  rw [if_neg (fun hcon => by have := take_head _ _ _ _ hcon; simp at this)]
  rw [if_neg (fun hcon => by have := take_head _ _ _ _ hcon; simp at this)]
  rw [if_neg (fun hcon => by have := take_head _ _ _ _ hcon; simp at this)]
  rw [if_pos (by simp)]
  simp only [List.head?_cons, List.tail_cons]
  rw [parseStrBody_esc s.data rest]
  simp [Except.map, strMk_data]

theorem parseVal_scalar {v : PyVal} (hv : isScalar v = true) (d fuel : Nat)
    (rest : List Char) (hstop : numStopOk rest) :
    parseVal (fuel + 1) ((dumpVal v d).data ++ rest) = .ok (v, rest) := by
  cases v with
  | none => exact parseVal_none d fuel rest
  | bool b =>
    cases b
    · exact parseVal_false d fuel rest
    · exact parseVal_true d fuel rest
  | int n => exact parseVal_int n fuel rest hstop
  | str s => exact parseVal_str s d fuel rest
  | float n => simp [isScalar] at hv
  | nan => simp [isScalar] at hv
  | list xs => simp [isScalar] at hv
  | dict kvs => simp [isScalar] at hv

theorem quoteJson_data (s : String) :
    (quoteJson s).data = '"' :: (escChars s.data ++ ['"']) := rfl

theorem parseVal_eq (fuel : Nat) (cs0 : List Char) :
    parseVal (fuel + 1) cs0 =
      (let cs := skipWs cs0
       if cs.take 4 = ['n', 'u', 'l', 'l'] then .ok (.none, cs.drop 4)
       else if cs.take 4 = ['t', 'r', 'u', 'e'] then .ok (.bool true, cs.drop 4)
       else if cs.take 5 = ['f', 'a', 'l', 's', 'e'] then .ok (.bool false, cs.drop 5)
       else if cs.head? = some '"' then
         (parseStrBody cs.tail).map (fun r => (.str (String.mk r.1), r.2))
       else if cs.head? = some '[' then
         (let cs2 := skipWs cs.tail
          if cs2.head? = some ']' then .ok (.list [], cs2.tail)
          else (parseItems fuel cs2).map (fun r => (.list r.1, r.2)))
       else if cs.head? = some '\x7b' then
         (let cs2 := skipWs cs.tail
          if cs2.head? = some '\x7d' then .ok (.dict [], cs2.tail)
          else (parseMembers fuel cs2).map (fun r => (.dict r.1, r.2)))
       else parseNum cs) := by
  simp only [parseVal]

theorem parseItems_eq (fuel : Nat) (cs : List Char) :
    parseItems (fuel + 1) cs =
      (match parseVal fuel cs with
       | .error e => .error e
       | .ok (v, r) =>
         let r2 := skipWs r
         if r2.head? = some ',' then
           (parseItems fuel r2.tail).map (fun q => (v :: q.1, q.2))
         else if r2.head? = some ']' then .ok ([v], r2.tail)
         else .error "Expecting ',' delimiter") := by
  simp only [parseItems]

theorem parseMembers_eq (fuel : Nat) (cs : List Char) :
    parseMembers (fuel + 1) cs =
      (let cs2 := skipWs cs
       if cs2.head? = some '"' then
         match parseStrBody cs2.tail with
         | .error e => .error e
         | .ok (k, r) =>
           let r2 := skipWs r
           if r2.head? = some ':' then
             match parseVal fuel r2.tail with
             | .error e => .error e
             | .ok (v, r3) =>
               let r4 := skipWs r3
               if r4.head? = some ',' then
                 (parseMembers fuel r4.tail).map (fun q => ((String.mk k, v) :: q.1, q.2))
               else if r4.head? = some '\x7d' then .ok ([(String.mk k, v)], r4.tail)
               else .error "Expecting ',' delimiter"
           else .error "Expecting ':' delimiter"
       else .error "Expecting property name enclosed in double quotes") := by
  simp only [parseMembers]

theorem parseMembers_dump : ∀ (fs : List (String × PyVal)) (k d : Nat) (rest : List Char),
    recOk fs = true → fs ≠ [] →
    parseMembers (k + fs.length + 1) ((dumpMembers fs (d + 1)).data ++
      ('\n' :: ((jsonPad d).data ++ ('\x7d' :: rest)))) = .ok (fs, rest) := by
  intro fs
  induction fs with
  | nil => intro k d rest _ hne; exact absurd rfl hne
  | cons f fs ih =>
    intro k d rest hok _
    have hfok : isScalar f.2 = true := by
      simp [recOk] at hok
      exact hok.1
    cases fs with
    | nil =>
      rw [show k + ([f] : List (String × PyVal)).length + 1 = (k + 0) + 1 + 1 by simp]
      rw [parseMembers_eq]
      rw [show dumpMembers [f] (d + 1) =
        jsonPad (d + 1) ++ quoteJson f.1 ++ ": " ++ dumpVal f.2 (d + 1) from rfl]
      simp only [String.data_append, quoteJson_data, List.append_assoc, List.cons_append,
        List.singleton_append, List.nil_append]
      rw [skipWs_ws_append (jsonPad_ws (d + 1)), skipWs_cons_not_ws (by decide)]
      rw [if_pos (by simp)]
      simp only [List.head?_cons, List.tail_cons]
      rw [parseStrBody_esc f.1.data]
      simp only []
      rw [skipWs_cons_not_ws (by decide)]
      rw [if_pos (by simp)]
      simp only [List.head?_cons, List.tail_cons]
      rw [parseVal_cons_ws (k + 0 + 1) (by decide)]
      rw [parseVal_scalar hfok (d + 1) (k + 0)
        ('\n' :: ((jsonPad d).data ++ ('\x7d' :: rest)))
        (fun c hc => by injection hc with hc; subst hc; decide)]
      simp only []
      rw [skipWs_cons_ws (by decide), skipWs_ws_append (jsonPad_ws d),
        skipWs_cons_not_ws (by decide)]
      rw [if_neg (by simp), if_pos (by simp)]
      simp [strMk_data, Except.map]
    | cons g gs =>
      have hm : k + (f :: g :: gs).length + 1 = (k + (g :: gs).length + 1) + 1 := by
        simp only [List.length_cons]
        omega
      rw [hm, parseMembers_eq]
      rw [show dumpMembers (f :: g :: gs) (d + 1) =
        jsonPad (d + 1) ++ quoteJson f.1 ++ ": " ++ dumpVal f.2 (d + 1) ++ ",\n" ++
          dumpMembers (g :: gs) (d + 1) from rfl]
      simp only [String.data_append, quoteJson_data, List.append_assoc, List.cons_append,
        List.singleton_append, List.nil_append]
      rw [skipWs_ws_append (jsonPad_ws (d + 1)), skipWs_cons_not_ws (by decide)]
      rw [if_pos (by simp)]
      simp only [List.head?_cons, List.tail_cons]
      rw [parseStrBody_esc f.1.data]
      simp only []
      rw [skipWs_cons_not_ws (by decide)]
      rw [if_pos (by simp)]
      simp only [List.head?_cons, List.tail_cons]
      rw [parseVal_cons_ws (k + (g :: gs).length + 1) (by decide)]
      rw [show k + (g :: gs).length + 1 = (k + (g :: gs).length) + 1 by omega]
      rw [parseVal_scalar hfok (d + 1) (k + (g :: gs).length)
        (',' :: ('\n' :: ((dumpMembers (g :: gs) (d + 1)).data ++
          ('\n' :: ((jsonPad d).data ++ ('\x7d' :: rest))))))
        (fun c hc => by injection hc with hc; subst hc; decide)]
      simp only []
      rw [skipWs_cons_not_ws (by decide)]
      rw [if_pos (by simp)]
      simp only [List.head?_cons, List.tail_cons]
      rw [parseMembers_cons_ws ((k + (g :: gs).length) + 1) (by decide)]
      have ihg := ih k d rest (by
        simp [recOk] at hok ⊢
        exact hok.2) (by simp)
      rw [show (k + (g :: gs).length) + 1 = k + (g :: gs).length + 1 by omega]
      rw [ihg]
      simp [strMk_data, Except.map]

theorem skipWs_idem (cs : List Char) : skipWs (skipWs cs) = skipWs cs := by
  induction cs with
  | nil => rfl
  | cons c t ih =>
    by_cases h : isJsonWs c = true
    · rw [skipWs_cons_ws h, ih]
    · rw [skipWs_cons_not_ws (by simp at h; simp [h]), skipWs_cons_not_ws (by simp at h; simp [h])]

theorem parseMembers_skipWs (fuel : Nat) (cs : List Char) :
    parseMembers fuel (skipWs cs) = parseMembers fuel cs := by
  match fuel with
  | 0 => rfl
  | fuel + 1 =>
    simp only [parseMembers]
    rw [skipWs_idem]

theorem parseItems_skipWs_arg (fuel : Nat) (cs : List Char) :
    parseItems fuel (skipWs cs) = parseItems fuel cs := by
  match fuel with
  | 0 => rfl
  | fuel + 1 =>
    simp only [parseItems]
    congr 1
    match fuel with
    | 0 => rfl
    | fuel + 1 =>
      simp only [parseVal]
      rw [skipWs_idem]

theorem dumpMembers_skipWs_head (f : String × PyVal) (fs : List (String × PyVal))
    (dd : Nat) (T : List Char) : ∃ X,
    skipWs ((dumpMembers (f :: fs) dd).data ++ T) = '"' :: X := by
  cases fs with
  | nil =>
    rw [show dumpMembers [f] dd = jsonPad dd ++ quoteJson f.1 ++ ": " ++ dumpVal f.2 dd
      from rfl]
    simp only [String.data_append, quoteJson_data, List.append_assoc, List.cons_append,
      List.singleton_append, List.nil_append]
    rw [skipWs_ws_append (jsonPad_ws dd), skipWs_cons_not_ws (by decide)]
    exact ⟨_, rfl⟩
  | cons g gs =>
    rw [show dumpMembers (f :: g :: gs) dd = jsonPad dd ++ quoteJson f.1 ++ ": " ++
      dumpVal f.2 dd ++ ",\n" ++ dumpMembers (g :: gs) dd from rfl]
    simp only [String.data_append, quoteJson_data, List.append_assoc, List.cons_append,
      List.singleton_append, List.nil_append]
    rw [skipWs_ws_append (jsonPad_ws dd), skipWs_cons_not_ws (by decide)]
    exact ⟨_, rfl⟩

theorem parseVal_dict (kvs : List (String × PyVal)) (k d : Nat) (rest : List Char)
    (hok : recOk kvs = true) :
    parseVal (k + kvs.length + 2) ((dumpVal (.dict kvs) d).data ++ rest) =
      .ok (.dict kvs, rest) := by
  cases kvs with
  | nil =>
    rw [show k + List.length ([] : List (String × PyVal)) + 2 =
      (k + List.length ([] : List (String × PyVal)) + 1) + 1 by omega]
    rw [show dumpVal (.dict []) d = "\x7b\x7d" from rfl]
    rw [parseVal_eq]
    simp [skipWs, isJsonWs]
  | cons f fs =>
    rw [show k + (f :: fs).length + 2 = ((k + (f :: fs).length + 1)) + 1 by omega]
    rw [parseVal_eq]
    rw [show dumpVal (.dict (f :: fs)) d =
      "\x7b\n" ++ dumpMembers (f :: fs) (d + 1) ++ "\n" ++ jsonPad d ++ "\x7d" from rfl]
    simp only [String.data_append, List.append_assoc, List.cons_append,
      List.singleton_append, List.nil_append]
    rw [skipWs_cons_not_ws (by decide)]
    rw [if_neg (fun hcon => by have := take_head _ _ _ _ hcon; simp at this)]
    rw [if_neg (fun hcon => by have := take_head _ _ _ _ hcon; simp at this)]
    rw [if_neg (fun hcon => by have := take_head _ _ _ _ hcon; simp at this)]
    rw [if_neg (by simp), if_neg (by simp), if_pos (by simp)]
    simp only [List.head?_cons, List.tail_cons]
    rw [skipWs_cons_ws (by decide)]
    obtain ⟨X, hX⟩ := dumpMembers_skipWs_head f fs (d + 1)
      ((show String from "\n").data ++ ((jsonPad d).data ++ ((show String from "\x7d").data
        ++ rest)))
    rw [show ("\n").data ++ ((jsonPad d).data ++ (("\x7d").data ++ rest)) =
      '\n' :: ((jsonPad d).data ++ ('\x7d' :: rest)) from by simp] at hX
    rw [hX]
    rw [if_neg (by simp)]
    rw [← hX, parseMembers_skipWs]
    rw [parseMembers_dump (f :: fs) k d rest hok (by simp)]
    rfl

theorem parseItems_dump : ∀ (vs : List PyVal) (k d : Nat) (rest : List Char),
    recsOk vs = true → vs ≠ [] →
    parseItems (itemsFuel vs + k) ((dumpItems vs (d + 1)).data ++
      ('\n' :: ((jsonPad d).data ++ (']' :: rest)))) = .ok (vs, rest) := by
  intro vs
  induction vs with
  | nil => intro k d rest _ hne; exact absurd rfl hne
  | cons v vs ih =>
    intro k d rest hok _
    match v, hok with
    | .dict kvs, hok =>
      have hkok : recOk kvs = true := by
        simp [recsOk] at hok
        exact hok.1
      cases vs with
      | nil =>
        rw [show itemsFuel [PyVal.dict kvs] + k = (k + kvs.length + 2) + 1 by
          simp [itemsFuel]; omega]
        rw [parseItems_eq]
        rw [show dumpItems [PyVal.dict kvs] (d + 1) = jsonPad (d + 1) ++
          dumpVal (.dict kvs) (d + 1) from rfl]
        simp only [String.data_append, List.append_assoc]
        rw [parseVal_ws_lead (k + kvs.length + 2) (jsonPad_ws (d + 1))]
        rw [parseVal_dict kvs k (d + 1) _ hkok]
        simp only []
        rw [skipWs_cons_ws (by decide), skipWs_ws_append (jsonPad_ws d),
          skipWs_cons_not_ws (by decide)]
        rw [if_neg (by simp), if_pos (by simp)]
        simp
      | cons w ws =>
        have hwok : recsOk (w :: ws) = true := by
          simp [recsOk] at hok
          simp [hok.2]
        rw [show itemsFuel (PyVal.dict kvs :: w :: ws) + k =
          ((itemsFuel (w :: ws) + k) + kvs.length + 2) + 1 by simp [itemsFuel]; omega]
        rw [parseItems_eq]
        rw [show dumpItems (PyVal.dict kvs :: w :: ws) (d + 1) = jsonPad (d + 1) ++
          dumpVal (.dict kvs) (d + 1) ++ ",\n" ++ dumpItems (w :: ws) (d + 1) from rfl]
        simp only [String.data_append, List.append_assoc]
        rw [parseVal_ws_lead ((itemsFuel (w :: ws) + k) + kvs.length + 2)
          (jsonPad_ws (d + 1))]
        rw [show (",\n").data ++ ((dumpItems (w :: ws) (d + 1)).data ++
            ('\n' :: ((jsonPad d).data ++ (']' :: rest)))) =
          ',' :: ('\n' :: ((dumpItems (w :: ws) (d + 1)).data ++
            ('\n' :: ((jsonPad d).data ++ (']' :: rest))))) from by simp]
        rw [parseVal_dict kvs (itemsFuel (w :: ws) + k) (d + 1) _ hkok]
        simp only []
        rw [skipWs_cons_not_ws (by decide)]
        rw [if_pos (by simp)]
        simp only [List.head?_cons, List.tail_cons]
        rw [parseItems_cons_ws ((itemsFuel (w :: ws) + k) + kvs.length + 2) (by decide)]
        rw [show (itemsFuel (w :: ws) + k) + kvs.length + 2 =
          itemsFuel (w :: ws) + (k + kvs.length + 2) by omega]
        rw [ih (k + kvs.length + 2) d rest hwok (by simp)]
        rfl

theorem dumpItems_skipWs_head (v : PyVal) (vs : List PyVal) (dd : Nat) (T : List Char)
    (hok : recsOk (v :: vs) = true) : ∃ X,
    skipWs ((dumpItems (v :: vs) dd).data ++ T) = '\x7b' :: X := by
  match v, hok with
  | .dict kvs, _ =>
    cases vs with
    | nil =>
      rw [show dumpItems [PyVal.dict kvs] dd = jsonPad dd ++ dumpVal (.dict kvs) dd from rfl]
      simp only [String.data_append, List.append_assoc]
      rw [skipWs_ws_append (jsonPad_ws dd)]
      cases kvs with
      | nil =>
        rw [show dumpVal (.dict []) dd = "\x7b\x7d" from rfl]
        exact ⟨_, rfl⟩
      | cons f fs =>
        rw [show dumpVal (.dict (f :: fs)) dd = "\x7b\n" ++ dumpMembers (f :: fs) (dd + 1) ++
          "\n" ++ jsonPad dd ++ "\x7d" from rfl]
        simp only [String.data_append, List.append_assoc]
        exact ⟨_, rfl⟩
    | cons w ws =>
      rw [show dumpItems (PyVal.dict kvs :: w :: ws) dd = jsonPad dd ++
        dumpVal (.dict kvs) dd ++ ",\n" ++ dumpItems (w :: ws) dd from rfl]
      simp only [String.data_append, List.append_assoc]
      rw [skipWs_ws_append (jsonPad_ws dd)]
      cases kvs with
      | nil =>
        rw [show dumpVal (.dict []) dd = "\x7b\x7d" from rfl]
        exact ⟨_, rfl⟩
      | cons f fs =>
        rw [show dumpVal (.dict (f :: fs)) dd = "\x7b\n" ++ dumpMembers (f :: fs) (dd + 1) ++
          "\n" ++ jsonPad dd ++ "\x7d" from rfl]
        simp only [String.data_append, List.append_assoc]
        exact ⟨_, rfl⟩

theorem parseVal_recset (vs : List PyVal) (k : Nat) (rest : List Char)
    (hok : recsOk vs = true) :
    parseVal (itemsFuel vs + k + 1) ((dumpVal (.list vs) 0).data ++ rest) =
      .ok (.list vs, rest) := by
  cases vs with
  | nil =>
    rw [parseVal_eq]
    rw [show dumpVal (.list []) 0 = "[]" from rfl]
    simp [skipWs, isJsonWs]
  | cons v vs =>
    rw [parseVal_eq]
    rw [show dumpVal (.list (v :: vs)) 0 =
      "[\n" ++ dumpItems (v :: vs) 1 ++ "\n" ++ jsonPad 0 ++ "]" from rfl]
    simp only [String.data_append, List.append_assoc, List.cons_append,
      List.singleton_append, List.nil_append]
    rw [skipWs_cons_not_ws (by decide)]
    rw [if_neg (fun hcon => by have := take_head _ _ _ _ hcon; simp at this)]
    rw [if_neg (fun hcon => by have := take_head _ _ _ _ hcon; simp at this)]
    rw [if_neg (fun hcon => by have := take_head _ _ _ _ hcon; simp at this)]
    rw [if_neg (by simp), if_pos (by simp)]
    simp only [List.head?_cons, List.tail_cons]
    rw [skipWs_cons_ws (by decide)]
    obtain ⟨X, hX⟩ := dumpItems_skipWs_head v vs 1
      (("\n").data ++ ((jsonPad 0).data ++ (("]").data ++ rest))) hok
    rw [show ("\n").data ++ ((jsonPad 0).data ++ (("]").data ++ rest)) =
      '\n' :: ((jsonPad 0).data ++ (']' :: rest)) from by simp [jsonPad]] at hX
    rw [show (1 : Nat) = 0 + 1 from rfl] at hX
    rw [hX]
    rw [if_neg (by simp)]
    rw [← hX, parseItems_skipWs_arg]
    rw [parseItems_dump (v :: vs) k 0 rest hok (by simp)]
    rfl

theorem dumpVal_length_pos (v : PyVal) (d : Nat) : 1 ≤ (dumpVal v d).length := by
  cases v with
  | none => rw [show dumpVal .none d = "null" from rfl]; decide
  | bool b =>
    cases b
    · rw [show dumpVal (.bool false) d = "false" from rfl]; decide
    · rw [show dumpVal (.bool true) d = "true" from rfl]; decide
  | int n =>
    rw [show dumpVal (.int n) d = intStr n from rfl]
    simp only [intStr, intChars, String.length]
    by_cases hn : n < 0
    · simp [if_pos hn]
    · simp only [if_neg hn]
      have := natToChars_ne_nil n.toNat
      cases hq : natToChars n.toNat with
      | nil => exact absurd hq this
      | cons a t => simp
  | float n =>
    rw [show dumpVal (.float n) d = intStr n ++ ".0" from rfl]
    have h2 : (".0").length = 2 := rfl
    simp only [String.length_append]
    omega
  | nan => rw [show dumpVal .nan d = "NaN" from rfl]; decide
  | str s =>
    rw [show dumpVal (.str s) d = quoteJson s from rfl]
    simp [quoteJson, String.length]
  | list xs =>
    cases xs with
    | nil => rw [show dumpVal (.list []) d = "[]" from rfl]; decide
    | cons x t =>
      rw [show dumpVal (.list (x :: t)) d =
        "[\n" ++ dumpItems (x :: t) (d + 1) ++ "\n" ++ jsonPad d ++ "]" from rfl]
      have h2 : ("[\n").length = 2 := rfl
      simp only [String.length_append]
      omega
  | dict kvs =>
    cases kvs with
    | nil => rw [show dumpVal (.dict []) d = "\x7b\x7d" from rfl]; decide
    | cons f fs =>
      rw [show dumpVal (.dict (f :: fs)) d =
        "\x7b\n" ++ dumpMembers (f :: fs) (d + 1) ++ "\n" ++ jsonPad d ++ "\x7d" from rfl]
      have h2 : ("\x7b\n").length = 2 := rfl
      simp only [String.length_append]
      omega

theorem quoteJson_length_pos (s : String) : 1 ≤ (quoteJson s).length := by
  simp [quoteJson, String.length]

theorem dumpMembers_length : ∀ (fs : List (String × PyVal)) (d : Nat),
    fs.length ≤ (dumpMembers fs d).length := by
  intro fs
  induction fs with
  | nil => intro d; simp
  | cons f fs ih =>
    intro d
    cases fs with
    | nil =>
      rw [show dumpMembers [f] d = jsonPad d ++ quoteJson f.1 ++ ": " ++ dumpVal f.2 d
        from rfl]
      have h1 := quoteJson_length_pos f.1
      simp only [String.length_append, List.length_cons, List.length_nil]
      omega
    | cons g gs =>
      rw [show dumpMembers (f :: g :: gs) d = jsonPad d ++ quoteJson f.1 ++ ": " ++
        dumpVal f.2 d ++ ",\n" ++ dumpMembers (g :: gs) d from rfl]
      have h1 := quoteJson_length_pos f.1
      have h2 := ih d
      simp only [String.length_append, List.length_cons] at h2 ⊢
      omega

theorem dumpVal_dict_length (kvs : List (String × PyVal)) (d : Nat) :
    kvs.length + 2 ≤ (dumpVal (.dict kvs) d).length := by
  cases kvs with
  | nil => rw [show dumpVal (.dict []) d = "\x7b\x7d" from rfl]; decide
  | cons f fs =>
    rw [show dumpVal (.dict (f :: fs)) d =
      "\x7b\n" ++ dumpMembers (f :: fs) (d + 1) ++ "\n" ++ jsonPad d ++ "\x7d" from rfl]
    have h1 := dumpMembers_length (f :: fs) (d + 1)
    have h2 : ("\x7b\n").length = 2 := rfl
    have h3 : ("\n").length = 1 := rfl
    have h4 : ("\x7d").length = 1 := rfl
    simp only [String.length_append, List.length_cons] at h1 ⊢
    omega

theorem itemsFuel_le : ∀ (vs : List PyVal) (d : Nat), recsOk vs = true → vs ≠ [] →
    itemsFuel vs ≤ (dumpItems vs d).length + 1 := by
  intro vs
  induction vs with
  | nil => intro d _ hne; exact absurd rfl hne
  | cons v vs ih =>
    intro d hok _
    match v, hok with
    | .dict kvs, hok =>
      cases vs with
      | nil =>
        rw [show dumpItems [PyVal.dict kvs] d = jsonPad d ++ dumpVal (.dict kvs) d from rfl]
        have h1 := dumpVal_dict_length kvs d
        simp only [itemsFuel, String.length_append]
        omega
      | cons w ws =>
        rw [show dumpItems (PyVal.dict kvs :: w :: ws) d = jsonPad d ++
          dumpVal (.dict kvs) d ++ ",\n" ++ dumpItems (w :: ws) d from rfl]
        have h1 := dumpVal_dict_length kvs d
        have h2 := ih d (by simp [recsOk] at hok; simp [hok.2]) (by simp)
        have h3 : (",\n").length = 2 := rfl
        simp only [itemsFuel, String.length_append]
        omega

theorem json_loads_dumps (vs : List PyVal) (hok : recsOk vs = true) :
    json_loads (json_dumps (.list vs)) = .ok (.list vs) := by
  have hfits : itemsFuel vs ≤ (json_dumps (.list vs)).data.length := by
    cases vs with
    | nil => simp [itemsFuel]
    | cons v t =>
      rw [show json_dumps (.list (v :: t)) =
        "[\n" ++ dumpItems (v :: t) 1 ++ "\n" ++ jsonPad 0 ++ "]" from rfl]
      have h1 := itemsFuel_le (v :: t) 1 hok (by simp)
      have h2 : ("[\n").length = 2 := rfl
      rw [show ("[\n" ++ dumpItems (v :: t) 1 ++ "\n" ++ jsonPad 0 ++ "]").data.length =
        ("[\n" ++ dumpItems (v :: t) 1 ++ "\n" ++ jsonPad 0 ++ "]").length from rfl]
      simp only [String.length_append]
      omega
  rw [json_loads]
  rw [show (json_dumps (.list vs)).data.length + 1 =
    itemsFuel vs + ((json_dumps (.list vs)).data.length - itemsFuel vs) + 1 by omega]
  have hp := parseVal_recset vs ((json_dumps (.list vs)).data.length - itemsFuel vs) []
    hok
  rw [List.append_nil] at hp
  rw [show json_dumps (.list vs) = dumpVal (.list vs) 0 from rfl] at hp ⊢
  rw [hp]
  rfl

theorem charListLe_total : ∀ a b : List Char, charListLe a b = true ∨ charListLe b a = true := by
  intro a
  induction a with
  | nil => intro b; left; rfl
  | cons x xs ih =>
    intro b
    cases b with
    | nil => right; rfl
    | cons y ys =>
      simp only [charListLe]
      by_cases h1 : x.toNat < y.toNat
      · left; simp [h1]
      · by_cases h2 : y.toNat < x.toNat
        · right; simp [h2, show ¬ x.toNat < y.toNat from h1]
        · rcases ih ys with h | h
          · left; simp [h1, h2, h]
          · right; simp [h1, h2, h]

theorem charListLe_trans : ∀ a b c : List Char, charListLe a b = true →
    charListLe b c = true → charListLe a c = true := by
  intro a
  induction a with
  | nil => intro b c _ _; rfl
  | cons x xs ih =>
    intro b c hab hbc
    cases b with
    | nil => simp [charListLe] at hab
    | cons y ys =>
      cases c with
      | nil => simp [charListLe] at hbc
      | cons z zs =>
        simp only [charListLe] at hab hbc ⊢
        by_cases hxy : x.toNat < y.toNat
        · by_cases hyz : y.toNat < z.toNat
          · simp [show x.toNat < z.toNat by omega]
          · by_cases hzy : z.toNat < y.toNat
            · simp [hyz, hzy] at hbc
            · simp [show x.toNat < z.toNat by omega]
        · by_cases hyx : y.toNat < x.toNat
          · simp [hxy, hyx] at hab
          · by_cases hyz : y.toNat < z.toNat
            · simp [show x.toNat < z.toNat by omega]
            · by_cases hzy : z.toNat < y.toNat
              · simp [hyz, hzy] at hbc
              · simp [hxy, hyx] at hab
                simp [hyz, hzy] at hbc
                simp [show ¬ x.toNat < z.toNat by omega, show ¬ z.toNat < x.toNat by omega,
                  ih ys zs hab hbc]

theorem strLe_total (a b : String) : strLe a b = true ∨ strLe b a = true :=
  charListLe_total a.data b.data

theorem strLe_trans {a b c : String} (h1 : strLe a b = true) (h2 : strLe b c = true) :
    strLe a c = true :=
  charListLe_trans a.data b.data c.data h1 h2

theorem insertByKey_perm (p : String × PyVal) : ∀ l : List (String × PyVal),
    (insertByKey p l).Perm (p :: l) := by
  intro l
  induction l with
  | nil => simp [insertByKey]
  | cons q qs ih =>
    simp only [insertByKey]
    split
    · exact ((ih.cons q).trans (List.Perm.swap p q qs)).symm.symm
    · exact List.Perm.refl _

theorem insertByKey_sorted (p : String × PyVal) : ∀ l : List (String × PyVal),
    l.Pairwise (fun a b => strLe a.1 b.1 = true) →
    (insertByKey p l).Pairwise (fun a b => strLe a.1 b.1 = true) := by
  intro l
  induction l with
  | nil => intro _; simp [insertByKey]
  | cons q qs ih =>
    intro hs
    rcases List.pairwise_cons.mp hs with ⟨hq, hqs⟩
    simp only [insertByKey]
    split
    · refine List.pairwise_cons.mpr ⟨?_, ih hqs⟩
      intro a ha
      have hmem := (insertByKey_perm p qs).mem_iff.mp ha
      simp at hmem
      rcases hmem with rfl | hmem
      · assumption
      · exact hq a hmem
    · refine List.pairwise_cons.mpr ⟨?_, hs⟩
      intro a ha
      have hple : strLe p.1 q.1 = true := by
        rcases strLe_total q.1 p.1 with h | h
        · exact absurd h (by assumption)
        · exact h
      simp at ha
      rcases ha with rfl | hmem
      · exact hple
      · exact strLe_trans hple (hq a hmem)

theorem sortByKey_perm : ∀ r : List (String × PyVal), (sortByKey r).Perm r := by
  intro r
  induction r with
  | nil => rfl
  | cons p ps ih =>
    exact (insertByKey_perm p (sortByKey ps)).trans (ih.cons p)

theorem sortByKey_sorted : ∀ r : List (String × PyVal),
    (sortByKey r).Pairwise (fun a b => strLe a.1 b.1 = true) := by
  intro r
  induction r with
  | nil => simp [sortByKey]
  | cons p ps ih => exact insertByKey_sorted p (sortByKey ps) ih

theorem recordElems_get? : ∀ (data : List (List (String × PyVal))) (i j : Nat),
    (recordElems i data).get? j = (data.get? j).map (fun r =>
      { tag := "record_" ++ natStr (i + j + 1), text := "", children := r.map fieldElem }) := by
  intro data
  induction data with
  | nil => intro i j; simp [recordElems]
  | cons r rs ih =>
    intro i j
    cases j with
    | zero => simp [recordElems]
    | succ j =>
      simp only [recordElems, List.get?_cons_succ, ih (i + 1) j]
      have : i + 1 + j + 1 = i + (j + 1) + 1 := by omega
      rw [this]

theorem recordElems_length : ∀ (data : List (List (String × PyVal))) (i : Nat),
    (recordElems i data).length = data.length := by
  intro data
  induction data with
  | nil => intro i; rfl
  | cons r rs ih => intro i; simp [recordElems, ih (i + 1)]

/-- C1 counterexample: the claim says parsing "a,b\n1,2,3" fails with a
ParseError, but the code succeeds: `pd.read_csv` treats the first data row's
extra leading field as the implied row index, and `to_dict('records')` drops
it, so `parse_csv_data` returns the single record `a=2, b=3` with no error. -/
theorem c1_counterexample :
    parse_csv_data "a,b\n1,2,3" ',' =
      (.list [.dict [("a", .int 2), ("b", .int 3)]], Option.none) := rfl

/-- C1 (amended): a data row with more fields than the header is not rejected
when it is the first data row with exactly one extra field — pandas silently
reinterprets the leading column as the row index, so "a,b\n1,2,3" parses
successfully to [{a: 2, b: 3}]; only a row wider than the width established
by the header and first data row fails, as in "a,b\n1,2\n1,2,3". -/
theorem c1_amended :
    parse_csv_data "a,b\n1,2,3" ',' =
      (.list [.dict [("a", .int 2), ("b", .int 3)]], Option.none) ∧
    parse_csv_data "a,b\n1,2\n1,2,3" ',' = (.none, some ("Error parsing CSV: " ++
      "Error tokenizing data. C error: Expected 2 fields in line 3, saw 3")) :=
  ⟨rfl, rfl⟩

/-- C2 counterexample: the claim says converting [{a:1,b:2},{a:3}] to CSV
yields rows "1,2" and "3,", but the code emits "1,2.0": the missing value in
column b makes pandas store the column as float64, so 2 prints as 2.0. -/
theorem c2_counterexample :
    ¬ ((generate_csv_output (pd_DataFrame
      [[("a", .int 1), ("b", .int 2)], [("a", .int 3)]])).1 = "a,b\n1,2\n3,\n") := by
  intro h
  have h2 : (generate_csv_output (pd_DataFrame
      [[("a", .int 1), ("b", .int 2)], [("a", .int 3)]])).1 = "a,b\n1,2.0\n3,\n" := rfl
  rw [h2] at h
  exact absurd h (by decide)

/-- C2 (amended): converting [{a:1,b:2},{a:3}] to CSV succeeds with header
"a,b"; the missing field is emitted as the empty string, but the present value
2 is emitted as "2.0" because the column containing a missing value is
promoted to float. -/
theorem c2_amended :
    (generate_csv_output (pd_DataFrame
      [[("a", .int 1), ("b", .int 2)], [("a", .int 3)]])).1 = "a,b\n1,2.0\n3,\n" := rfl

/-- C6 counterexample: the claim says a duplicate header name is a ParseError,
but the code succeeds: pandas renames the second "a" to "a.1" and parsing
"a,a\n1,2" yields the record {a: 1, a.1: 2} with no error. -/
theorem c6_counterexample :
    parse_csv_data "a,a\n1,2" ',' =
      (.list [.dict [("a", .int 1), ("a.1", .int 2)]], Option.none) := rfl

/-- C6 (amended): duplicate CSV header names are not rejected; pandas renames
the k-th further occurrence with a ".k" suffix (probing further if the new
name also exists), yielding unique column names. -/
theorem c6_amended :
    parse_csv_data "a,a\n1,2" ',' =
      (.list [.dict [("a", .int 1), ("a.1", .int 2)]], Option.none) ∧
    dedup_names ["a", "a", "a"] = ["a", "a.1", "a.2"] ∧
    dedup_names ["a", "a.1", "a"] = ["a", "a.1", "a.1.1"] := by
  refine ⟨rfl, by decide, by decide⟩

/-- C10: feeding the JSON text "null" to `parse_json_data` returns `None` for
both the data and the error component (Python's `json.loads("null")` is `None`
and the parser reports no error), so the caller's `data is not None` check in
`main` takes the failure branch and displays `"❌ None"` — no diagnostic. -/
theorem c10_null_silent :
    parse_json_data "null" = (PyVal.none, Option.none) ∧
    main_paste_json_outcome "null" = .inr "❌ None" := ⟨rfl, rfl⟩

/-- C3 counterexample: the claim says any decoded shape other than an
array-of-objects or bare object yields a ParseError, and that a bare object is
wrapped into a one-element record set.  Neither happens: `parse_json_data`
returns `(json.loads(content), None)` unvalidated, so the scalar input "5"
succeeds with data 5 and no error, and a bare object is returned as the dict
itself, not wrapped in a list. -/
theorem c3_counterexample :
    parse_json_data "5" = (.int 5, Option.none) ∧
    parse_json_data "\x7b\"a\": 1\x7d" = (.dict [("a", .int 1)], Option.none) := ⟨rfl, rfl⟩

/-- C3 (amended): the JSON parser succeeds exactly when the text decodes as
JSON of any shape, returning the decoded value as-is (bare objects are not
wrapped and no shape check happens in the parser); the shape requirement —
a list whose first element is a dict — is enforced separately by
`validate_data`, which reports a validation message, not a ParseError. -/
theorem c3_amended : ∀ (s : String) (v : PyVal), json_loads s = .ok v →
    parse_json_data s = (v, Option.none) ∧
    ((validate_data v).1 = true ↔ ∃ kvs tl, v = .list (.dict kvs :: tl)) := by
  intro s v h
  constructor
  · simp [parse_json_data, h]
  · constructor
    · intro hv
      match v, hv with
      | .list (.dict kvs :: tl), _ => exact ⟨kvs, tl, rfl⟩
      | .list [], hv => simp [validate_data] at hv
      | .list (.none :: tl), hv => simp [validate_data] at hv
      | .list (.bool b :: tl), hv => simp [validate_data] at hv
      | .list (.int n :: tl), hv => simp [validate_data] at hv
      | .list (.float n :: tl), hv => simp [validate_data] at hv
      | .list (.nan :: tl), hv => simp [validate_data] at hv
      | .list (.str s2 :: tl), hv => simp [validate_data] at hv
      | .list (.list xs :: tl), hv => simp [validate_data] at hv
      | .none, hv => simp [validate_data] at hv
      | .bool b, hv => simp [validate_data] at hv
      | .int n, hv => simp [validate_data] at hv
      | .float n, hv => simp [validate_data] at hv
      | .nan, hv => simp [validate_data] at hv
      | .str s2, hv => simp [validate_data] at hv
      | .dict kvs, hv => simp [validate_data] at hv
    · intro ⟨kvs, tl, hv⟩
      subst hv
      rfl

/-- C3 witness: instantiating the amended characterization at the concrete
input "[{}]". -/
theorem c3_witness :
    json_loads "[\x7b\x7d]" = .ok (.list [.dict []]) ∧
    (parse_json_data "[\x7b\x7d]" = (.list [.dict []], Option.none) ∧
      ((validate_data (.list [.dict []])).1 = true ↔
        ∃ kvs tl, (PyVal.list [.dict []]) = .list (.dict kvs :: tl))) :=
  ⟨rfl, c3_amended "[\x7b\x7d]" (.list [.dict []]) rfl⟩

/-- C5 counterexample: the claim says the YAML generator emits each mapping's
keys in the record's own field order, but `yaml.dump` sorts keys by default:
the record with fields b then a is emitted with key "a" first. -/
theorem c5_counterexample :
    (generate_yaml_output [[("b", .int 1), ("a", .int 2)]]).1 = "- a: 2\n  b: 1\n" ∧
    yamlSpecFieldOrderBlock [("b", .int 1), ("a", .int 2)] = "- b: 1\n  a: 2\n" ∧
    ("- a: 2\n  b: 1\n" : String) ≠ "- b: 1\n  a: 2\n" := ⟨rfl, rfl, by decide⟩

/-- C5 (amended): the YAML generator serializes a non-empty record set as a
block-style sequence of mappings (Unicode left intact by the model's plain
scalars), but within each emitted mapping the keys appear in sorted order
(PyYAML's `sort_keys` default) — a permutation of the record's own fields,
not their original order. -/
theorem c5_amended : ∀ (data : List (List (String × PyVal))) (r : List (String × PyVal)),
    r ∈ data →
    (generate_yaml_output data).1 = String.join (data.map yamlRecordBlock) ∧
    ((sortByKey r).map Prod.fst).Pairwise (fun a b => strLe a b = true) ∧
    ((sortByKey r).map Prod.fst).Perm (r.map Prod.fst) := by
  intro data r hr
  refine ⟨?_, ?_, ?_⟩
  · match data, hr with
    | d :: ds, _ => rfl
  · exact List.Pairwise.map Prod.fst (fun a b hab => hab) (sortByKey_sorted r)
  · exact (sortByKey_perm r).map Prod.fst

/-- C5 witness: instantiating the amended statement at a concrete record. -/
theorem c5_witness :
    ([("b", PyVal.int 1), ("a", PyVal.int 2)] ∈
      [[("b", PyVal.int 1), ("a", PyVal.int 2)]]) ∧
    ((generate_yaml_output [[("b", PyVal.int 1), ("a", PyVal.int 2)]]).1 =
      String.join ([[("b", PyVal.int 1), ("a", PyVal.int 2)]].map yamlRecordBlock) ∧
    ((sortByKey [("b", PyVal.int 1), ("a", PyVal.int 2)]).map Prod.fst).Pairwise
      (fun a b => strLe a b = true) ∧
    ((sortByKey [("b", PyVal.int 1), ("a", PyVal.int 2)]).map Prod.fst).Perm
      ([("b", PyVal.int 1), ("a", PyVal.int 2)].map Prod.fst)) :=
  ⟨List.mem_cons_self _ _,
    c5_amended [[("b", PyVal.int 1), ("a", PyVal.int 2)]] _ (List.mem_cons_self _ _)⟩

/-- C4 counterexample: the claim says the error reported after all five
parsers fail aggregates each attempted format's error, but the loop keeps
only the last (YAML) error: the CSV parser's distinct error message is
discarded and does not occur in the reported error. -/
theorem c4_counterexample :
    (try_all_parsers allFailInput).2 = some ("Invalid YAML format: " ++
      "while scanning for the next token\nfound character that cannot start any token") ∧
    (parse_csv_file allFailInput).2 = some ("Error parsing CSV: " ++
      "Error tokenizing data. C error: Expected 2 fields in line 3, saw 3") ∧
    containsSub ("Invalid YAML format: " ++
      "while scanning for the next token\nfound character that cannot start any token")
      "Error parsing CSV" = false := ⟨rfl, rfl, by decide⟩

/-- C4 (amended): when detection returns Unknown the parsers are attempted in
the fixed order JSON, CSV, TSV, XML, YAML and the first structural success is
returned; but if all five fail, the reported error is exactly the last
attempted (YAML) parser's error — the earlier sub-errors are discarded, not
aggregated. -/
theorem c4_amended : ∀ t : String, pyIsNone (try_all_parsers t).1 = true →
    (try_all_parsers t = parse_yaml_file t ∧
     pyIsNone (parse_json_file t).1 = true ∧
     pyIsNone (parse_csv_file t).1 = true ∧
     pyIsNone (parse_tsv_file t).1 = true ∧
     pyIsNone (parse_xml_file t).1 = true) := by
  intro t h
  simp only [try_all_parsers, tryLoop] at h ⊢
  by_cases h1 : pyIsNone (parse_json_file t).1 = true
  · rw [if_pos h1] at h ⊢
    by_cases h2 : pyIsNone (parse_csv_file t).1 = true
    · rw [if_pos h2] at h ⊢
      by_cases h3 : pyIsNone (parse_tsv_file t).1 = true
      · rw [if_pos h3] at h ⊢
        by_cases h4 : pyIsNone (parse_xml_file t).1 = true
        · rw [if_pos h4] at h ⊢
          by_cases h5 : pyIsNone (parse_yaml_file t).1 = true
          · rw [if_pos h5] at h ⊢
            exact ⟨rfl, h1, h2, h3, h4⟩
          · rw [if_neg h5] at h ⊢
            exact ⟨rfl, h1, h2, h3, h4⟩
        · rw [if_neg h4] at h
          exact absurd h h4
      · rw [if_neg h3] at h
        exact absurd h h3
    · rw [if_neg h2] at h
      exact absurd h h2
  · rw [if_neg h1] at h
    exact absurd h h1

/-- C4 witness: at the all-fail input the fallback indeed returns only the
YAML parser's result, with every parser having failed. -/
theorem c4_witness :
    pyIsNone (try_all_parsers allFailInput).1 = true ∧
    (try_all_parsers allFailInput = parse_yaml_file allFailInput ∧
     pyIsNone (parse_json_file allFailInput).1 = true ∧
     pyIsNone (parse_csv_file allFailInput).1 = true ∧
     pyIsNone (parse_tsv_file allFailInput).1 = true ∧
     pyIsNone (parse_xml_file allFailInput).1 = true) :=
  ⟨rfl, c4_amended allFailInput rfl⟩

/-- C7 counterexample: the claim says the XML generator's output is always
pretty-printed with two-space indentation, but for the record {"1": "x"} the
field name "1" is not a well-formed XML element name, `minidom.parseString`
raises, and the bare `except:` returns the compact single-line serialization —
no XML declaration, no newline, no indentation. -/
theorem c7_counterexample :
    (generate_xml_output [[("1", .str "x")]]).1 =
      "<data><record_1><1>x</1></record_1></data>" ∧
    ((generate_xml_output [[("1", .str "x")]]).1.data.contains '\n') = false :=
  ⟨rfl, by decide⟩

/-- C7 (amended): the generator builds a root element named `data`; the j-th
record (0-based j) becomes a child named `record_(j+1)`; each field becomes a
grandchild named after the field with spaces replaced by underscores whose
text is the stringified value with None mapped to the empty string; and the
output is the minidom pretty-print with two-space indentation (preceded by an
XML declaration) exactly when every element name is well-formed — otherwise
the compact `ET.tostring` serialization is returned unchanged. -/
theorem c7_amended : ∀ data : List (List (String × PyVal)),
    (xmlRoot data).tag = "data" ∧
    (xmlRoot data).children.length = data.length ∧
    (∀ (j : Nat) (r : List (String × PyVal)), data.get? j = some r →
      (xmlRoot data).children.get? j = some
        { tag := "record_" ++ natStr (j + 1), text := "", children := r.map fieldElem }) ∧
    (elemOk (xmlRoot data) = true →
      (generate_xml_output data).1 =
        "<?xml version=\"1.0\" ?>\n" ++ elemPretty (xmlRoot data) "") ∧
    (elemOk (xmlRoot data) = false →
      (generate_xml_output data).1 = elemRough (xmlRoot data)) := by
  intro data
  refine ⟨rfl, ?_, ?_, ?_, ?_⟩
  · exact recordElems_length data 0
  · intro j r hr
    rw [show (xmlRoot data).children = recordElems 0 data from rfl]
    rw [recordElems_get? data 0 j, hr]
    simp
  · intro hok
    simp only [generate_xml_output, if_pos hok]
  · intro hok
    simp only [generate_xml_output]
    rw [if_neg (by simp [hok])]

/-- C7 witness: instantiating the amended statement at a concrete one-record
input whose field names are well-formed, where the output is the two-space
pretty print. -/
theorem c7_witness :
    (([[("a b", PyVal.none)]] : List (List (String × PyVal))).get? 0 =
      some [("a b", PyVal.none)]) ∧
    elemOk (xmlRoot [[("a b", PyVal.none)]]) = true ∧
    (xmlRoot [[("a b", PyVal.none)]]).children.get? 0 = some
      { tag := "record_" ++ natStr 1, text := "",
        children := [("a b", PyVal.none)].map fieldElem } ∧
    (generate_xml_output [[("a b", PyVal.none)]]).1 =
      "<?xml version=\"1.0\" ?>\n" ++ elemPretty (xmlRoot [[("a b", PyVal.none)]]) "" :=
  ⟨rfl, rfl, (c7_amended [[("a b", PyVal.none)]]).2.2.1 0 _ rfl,
    (c7_amended [[("a b", PyVal.none)]]).2.2.2.1 rfl⟩

theorem recsOk_of_wf : ∀ rs : List (List (String × PyVal)),
    (∀ r ∈ rs, ∀ kv ∈ r, isScalar kv.2 = true) → recsOk (rs.map .dict) = true := by
  intro rs
  induction rs with
  | nil => intro _; rfl
  | cons r rest ih =>
    intro h
    simp only [List.map_cons, recsOk, Bool.and_eq_true]
    constructor
    · simp only [recOk, List.all_eq_true]
      intro kv hkv
      exact h r (by simp) kv hkv
    · exact ih (fun q hq kv hkv => h q (by simp [hq]) kv hkv)

/-- C8: round-trip — for every valid record set (a non-empty list of flat
field mappings with unique keys and scalar values), parsing the text produced
by the JSON generator with the JSON parser succeeds and returns exactly the
original record set (hence equal field-for-field, order-insensitively or
not). -/
theorem c8_roundtrip (rs : List (List (String × PyVal)))
    (hne : rs ≠ [])
    (hwf : ∀ r ∈ rs, (r.map Prod.fst).Nodup ∧ ∀ kv ∈ r, isScalar kv.2 = true) :
    parse_json_data (generate_json_output (recSetVal rs)).1 =
      (recSetVal rs, Option.none) := by
  have hok : recsOk (rs.map .dict) = true :=
    recsOk_of_wf rs (fun r hr kv hkv => (hwf r hr).2 kv hkv)
  have hl := json_loads_dumps (rs.map .dict) hok
  simp only [parse_json_data, generate_json_output]
  rw [show recSetVal rs = .list (rs.map .dict) from rfl, hl]

/-- C8 witness: the round trip instantiated at a concrete record set covering
all four scalar kinds. -/
theorem c8_witness :
    (([[("a", PyVal.int 1), ("b", PyVal.str "x"), ("c", PyVal.bool true),
        ("d", PyVal.none)]] : List (List (String × PyVal))) ≠ []) ∧
    (∀ r ∈ ([[("a", PyVal.int 1), ("b", PyVal.str "x"), ("c", PyVal.bool true),
        ("d", PyVal.none)]] : List (List (String × PyVal))),
      (r.map Prod.fst).Nodup ∧ ∀ kv ∈ r, isScalar kv.2 = true) ∧
    parse_json_data (generate_json_output (recSetVal
      [[("a", PyVal.int 1), ("b", PyVal.str "x"), ("c", PyVal.bool true),
        ("d", PyVal.none)]])).1 =
      (recSetVal [[("a", PyVal.int 1), ("b", PyVal.str "x"), ("c", PyVal.bool true),
        ("d", PyVal.none)]], Option.none) := by
  refine ⟨by simp, ?_, ?_⟩
  · intro r hr
    simp at hr
    subst hr
    constructor
    · decide
    · intro kv hkv
      simp at hkv
      rcases hkv with rfl | rfl | rfl | rfl <;> rfl
  · refine c8_roundtrip _ (by simp) ?_
    intro r hr
    simp at hr
    subst hr
    constructor
    · decide
    · intro kv hkv
      simp at hkv
      rcases hkv with rfl | rfl | rfl | rfl <;> rfl

/-- C9: the format detector is total — for every input it returns exactly one
of the six tags, and since every library call in it is guarded by
`try`/`except` (modelled by total functions returning `Except`), it never
raises; the final fall-through returns "Unknown". -/
theorem c9_detector_total : ∀ s : String,
    detect_format_from_content s = "JSON" ∨ detect_format_from_content s = "XML" ∨
    detect_format_from_content s = "YAML" ∨ detect_format_from_content s = "CSV" ∨
    detect_format_from_content s = "TSV" ∨ detect_format_from_content s = "Unknown" := by
  intro s
  simp only [detect_format_from_content]
  repeat' split
  all_goals simp
